import Mathlib

/-!
# vtkPushPlaneAction (ToolCursor): shallow embedding and verified properties

Source: `src/vtkPushPlaneAction.cxx`.

Modelling conventions.

* A C++ `double` is an exact rational number (`ℚ`): rounding, infinities and
  NaN are outside the model.  A quotient whose divisor is zero, a non-finite
  double in C++, has the value Lean gives it.
* A C++ `int` that holds an extent index is an integer (`ℤ`); the indices
  written by `SetOrigin` stay between two `int` values, so no wrap-around is
  involved.
* `double[3]`, `double[6]` and `int[6]` arrays are functions on `Fin 3` and
  `Fin 6`; an access outside the array is a fault.
* A pointer member is an `Option` of the object it points to; dereferencing a
  null pointer is a fault.  Faults are the `none` result of an operation.
* `sqrt`, the VTK transform, the display/world projection of the cursor and the
  camera are collaborators outside the file; they are parameters of the model
  and every theorem holds for all of them.
-/

namespace PushPlane

/-! ## Vectors and `vtkMath` -/

/-- A `double[3]`. -/
abbrev Vec3 := Fin 3 → ℚ

/-- A `double[6]`: bounds or cropping planes, `(xmin, xmax, ymin, ymax, zmin, zmax)`. -/
abbrev Vec6 := Fin 6 → ℚ

/-- An `int[6]` extent. -/
abbrev Ext6 := Fin 6 → ℤ

/-- Index `2*i` of a six-element array. -/
def lowerIndex (i : Fin 3) : Fin 6 := ⟨2 * i.val, by omega⟩

/-- Index `2*i+1` of a six-element array. -/
def upperIndex (i : Fin 3) : Fin 6 := ⟨2 * i.val + 1, by omega⟩

/-- The axis `i = PlaneId/2` of a plane index. -/
def axisOf (p : Fin 6) : Fin 3 := ⟨p.val / 2, by omega⟩

/-- `vtkMath::Dot`. -/
def Dot (a b : Vec3) : ℚ := a 0 * b 0 + a 1 * b 1 + a 2 * b 2

/-- `vtkMath::Cross(a, b, z)`; the result is computed before it is stored, so
`z` may alias an argument. -/
def Cross (a b : Vec3) : Vec3 :=
  ![a 1 * b 2 - a 2 * b 1, a 2 * b 0 - a 0 * b 2, a 0 * b 1 - a 1 * b 0]

/-- `vtkMath::Norm`: `sqrt(x[0]*x[0] + x[1]*x[1] + x[2]*x[2])`. -/
def Norm (sqrt : ℚ → ℚ) (v : Vec3) : ℚ := sqrt (v 0 * v 0 + v 1 * v 1 + v 2 * v 2)

/-- `vtkMath::Normalize`: divides the vector by its norm unless the norm is zero. -/
def Normalize (sqrt : ℚ → ℚ) (v : Vec3) : Vec3 :=
  if Norm sqrt v ≠ 0 then fun k => v k / Norm sqrt v else v

/-- `vtkMath::Distance2BetweenPoints`. -/
def Distance2BetweenPoints (a b : Vec3) : ℚ :=
  (a 0 - b 0) * (a 0 - b 0) + (a 1 - b 1) * (a 1 - b 1) + (a 2 - b 2) * (a 2 - b 2)

/-! ## Objects reached through the action's pointers -/

/-- A `vtkPlane`: origin and normal in world coordinates. -/
structure vtkPlane where
  Origin : Vec3
  Normal : Vec3

/-- What the file reads of a `vtkImageData`. -/
structure vtkImageData where
  Origin : Vec3
  Spacing : Vec3
  WholeExtent : Ext6

/-- What the file uses of a `vtkImageActor`: its input, its display extent and
the display bounds VTK reports for it. -/
structure vtkImageActor where
  Input : Option vtkImageData
  DisplayExtent : Ext6
  DisplayBounds : Vec6

/-- What the file uses of a `vtkVolumeMapper`: its clipping planes (it is an
abstract mapper), its cropping region, its data bounds and its input. -/
structure vtkVolumeMapper where
  ClippingPlanes : Option (List vtkPlane)
  CroppingRegionPlanes : Vec6
  Bounds : Vec6
  Input : Option vtkImageData

/-- What the file uses of a `vtkAbstractMapper3D`: the clipping plane
collection, null when none was set. -/
structure vtkAbstractMapper3D where
  ClippingPlanes : Option (List vtkPlane)

/-- The `vtkTransform` member with the three maps the file applies. -/
structure vtkTransform where
  TransformPoint : Vec3 → Vec3
  TransformNormal : Vec3 → Vec3
  InverseTransformPoint : Vec3 → Vec3

/-- A picked `vtkProp3D`: the transform its matrix defines and the result of
`vtkImageActor::SafeDownCast`. -/
structure vtkProp3D where
  Matrix : vtkTransform
  ImageActor : Option vtkImageActor

/-- The dynamic type of the mapper the picker reports. -/
inductive PickedMapper where
  | volume (vm : vtkVolumeMapper)
  | other (m : vtkAbstractMapper3D)

/-- The picked mapper seen as a `vtkAbstractMapper3D`. -/
def PickedMapper.asAbstractMapper : PickedMapper → vtkAbstractMapper3D
  | .volume vm => { ClippingPlanes := vm.ClippingPlanes }
  | .other m => m

/-- Result of `vtkVolumeMapper::SafeDownCast` on the picked mapper. -/
def PickedMapper.asVolumeMapper : PickedMapper → Option vtkVolumeMapper
  | .volume vm => some vm
  | .other _ => none

/-- What the file reads of the `vtkVolumePicker`. -/
structure vtkVolumePicker where
  Prop3Ds : List vtkProp3D
  Mapper : Option PickedMapper
  CroppingPlaneId : ℤ
  ClippingPlaneId : ℤ

/-- The collaborators reached through `SurfaceCursor` and the superclass: the
picker, the active camera, the display/world conversions, and the C `sqrt`. -/
structure vtkSurfaceCursor where
  sqrt : ℚ → ℚ
  Picker : vtkVolumePicker
  CameraPosition : Vec3
  CameraFocalPoint : Vec3
  WorldToDisplay : Vec3 → ℚ × ℚ × ℚ
  DisplayToWorld : ℚ → ℚ → ℚ → Vec3
  GetViewRay : ℚ → ℚ → ℚ → Vec3 × Vec3

/-- The members of `vtkPushPlaneAction`, with the superclass members
`StartPosition` and `StartDisplayPosition` that `DoAction` reads. -/
structure vtkPushPlaneAction where
  Transform : vtkTransform
  ImageActor : Option vtkImageActor
  VolumeMapper : Option vtkVolumeMapper
  Mapper : Option vtkAbstractMapper3D
  PlaneId : ℤ
  PerpendicularPlane : Bool
  StartNormal : Vec3
  StartOrigin : Vec3
  StartPosition : Vec3
  StartDisplayPosition : ℚ × ℚ

/-! ## `SetOrigin` -/

/-- Lines 331-336 of `SetOrigin`: the slice index for local coordinate `oi` on
axis `i`. -/
def SliceIndex (data : vtkImageData) (i : Fin 3) (oi : ℚ) : ℤ :=
  let x := (oi - data.Origin i) / data.Spacing i
  let x := if x < (data.WholeExtent (lowerIndex i) : ℚ)
    then (data.WholeExtent (lowerIndex i) : ℚ) else x
  let x := if x > (data.WholeExtent (upperIndex i) : ℚ)
    then (data.WholeExtent (upperIndex i) : ℚ) else x
  let xi : ℤ := ⌊x⌋
  if x - (xi : ℚ) ≥ 0.5 then xi + 1 else xi

/-- Lines 351-359 of `SetOrigin`: the minimum thickness allowed on axis `i`. -/
def MinimumThickness (vm : vtkVolumeMapper) (i : Fin 3) : ℚ :=
  match vm.Input with
  | some data => data.Spacing i
  | none => 1

/-- Lines 361-375 of `SetOrigin`: the position stored for cropping plane `p`
when the local coordinate of the new origin is `x0`. -/
def CroppingPlanePosition (region bounds : Vec6) (t : ℚ) (p : Fin 6) (x0 : ℚ) : ℚ :=
  let i := axisOf p
  let x :=
    if p.val = 2 * i.val then
      let x := if x0 > region (upperIndex i) - t then region (upperIndex i) - t else x0
      if x > bounds (upperIndex i) - t then bounds (upperIndex i) - t else x
    else
      let x := if x0 < region (lowerIndex i) + t then region (lowerIndex i) + t else x0
      if x < bounds (lowerIndex i) + t then bounds (lowerIndex i) + t else x
  let x := if x < bounds (lowerIndex i) then bounds (lowerIndex i) else x
  if x > bounds (upperIndex i) then bounds (upperIndex i) else x

/-- `vtkPushPlaneAction::SetOrigin`. -/
def SetOrigin (s : vtkPushPlaneAction) (o : Vec3) : Option vtkPushPlaneAction :=
  if s.PlaneId < 0 then some s
  else
    match s.Mapper with
    | some mapper =>
      match mapper.ClippingPlanes with
      | none => none
      | some planes =>
        match planes[s.PlaneId.toNat]? with
        | none => none
        | some plane =>
          some { s with
            Mapper := some { mapper with
              ClippingPlanes := some (planes.set s.PlaneId.toNat { plane with Origin := o }) } }
    | none =>
      let origin := s.Transform.InverseTransformPoint o
      match s.ImageActor with
      | some actor =>
        match actor.Input with
        | none => none
        | some data =>
          if h : s.PlaneId.toNat < 6 then
            let i := axisOf ⟨s.PlaneId.toNat, h⟩
            let xi := SliceIndex data i (origin i)
            some { s with
              ImageActor := some { actor with
                DisplayExtent :=
                  Function.update (Function.update actor.DisplayExtent (upperIndex i) xi)
                    (lowerIndex i) xi } }
          else none
      | none =>
        match s.VolumeMapper with
        | some vm =>
          if h : s.PlaneId.toNat < 6 then
            let p : Fin 6 := ⟨s.PlaneId.toNat, h⟩
            let i := axisOf p
            let x := CroppingPlanePosition vm.CroppingRegionPlanes vm.Bounds
              (MinimumThickness vm i) p (origin i)
            some { s with
              VolumeMapper := some { vm with
                CroppingRegionPlanes := Function.update vm.CroppingRegionPlanes p x } }
          else none
        | none => some s

/-! ## `SetNormal` -/

/-- `vtkPushPlaneAction::SetNormal`. -/
def SetNormal (s : vtkPushPlaneAction) (n : Vec3) : Option vtkPushPlaneAction :=
  if s.PlaneId < 0 then some s
  else
    match s.Mapper with
    | some mapper =>
      match mapper.ClippingPlanes with
      | none => none
      | some planes =>
        match planes[s.PlaneId.toNat]? with
        | none => none
        | some plane =>
          some { s with
            Mapper := some { mapper with
              ClippingPlanes := some (planes.set s.PlaneId.toNat { plane with Normal := n }) } }
    | none => some s

/-! ## `GetPlaneOriginAndNormal` and `GetPropInformation` -/

/-- `vtkPushPlaneAction::GetPlaneOriginAndNormal`; `origin` and `normal` are the
caller's arrays, returned unchanged when there is no target. -/
def GetPlaneOriginAndNormal (s : vtkPushPlaneAction) (origin normal : Vec3) :
    Option (Vec3 × Vec3) :=
  match s.Mapper with
  | some mapper =>
    match mapper.ClippingPlanes with
    | none => none
    | some planes =>
      if s.PlaneId < 0 then none
      else
        match planes[s.PlaneId.toNat]? with
        | none => none
        | some plane => some (plane.Origin, plane.Normal)
  | none =>
    let bounds? : Option Vec6 :=
      match s.ImageActor with
      | some actor => some actor.DisplayBounds
      | none =>
        match s.VolumeMapper with
        | some vm => some vm.CroppingRegionPlanes
        | none => none
    match bounds? with
    | none => some (origin, normal)
    | some bounds =>
      if h : 0 ≤ s.PlaneId ∧ s.PlaneId.toNat < 6 then
        let p : Fin 6 := ⟨s.PlaneId.toNat, h.2⟩
        let i := axisOf p
        let normal : Vec3 := Function.update (fun _ => 0) i 1
        let origin : Vec3 :=
          Function.update
            ![(1 / 2) * (bounds 0 + bounds 1), (1 / 2) * (bounds 2 + bounds 3),
              (1 / 2) * (bounds 4 + bounds 5)] i (bounds p)
        some (s.Transform.TransformPoint origin, s.Transform.TransformNormal normal)
      else none

/-- `vtkPushPlaneAction::GetPropInformation`. -/
def GetPropInformation (cursor : vtkSurfaceCursor) (s : vtkPushPlaneAction) :
    Option vtkPushPlaneAction :=
  let picker := cursor.Picker
  match picker.Prop3Ds.head? with
  | none => none
  | some prop =>
    let s := { s with
      Transform := prop.Matrix
      ImageActor := prop.ImageActor
      Mapper := picker.Mapper.map PickedMapper.asAbstractMapper
      VolumeMapper := picker.Mapper.bind PickedMapper.asVolumeMapper
      PlaneId := -1 }
    let s :=
      if s.VolumeMapper.isSome ∧ picker.CroppingPlaneId ≥ 0 then
        { s with Mapper := none, PlaneId := picker.CroppingPlaneId }
      else
        { s with VolumeMapper := none, PlaneId := picker.ClippingPlaneId }
    let s :=
      match s.ImageActor with
      | some actor =>
        let extent := actor.DisplayExtent
        { s with PlaneId := if extent 2 = extent 3 then 2 else if extent 0 = extent 1 then 0 else 4 }
      | none => s
    if s.PlaneId ≥ 0 then
      match GetPlaneOriginAndNormal s s.StartOrigin s.StartNormal with
      | none => none
      | some (origin, normal) => some { s with StartOrigin := origin, StartNormal := normal }
    else some s

/-! ## `StartAction` -/

/-- `vtkPushPlaneAction::StartAction`.  The superclass call, which records the
start position of the cursor, is outside the file; `s` already holds it. -/
def StartAction (cursor : vtkSurfaceCursor) (s : vtkPushPlaneAction) :
    Option vtkPushPlaneAction :=
  match GetPropInformation cursor s with
  | none => none
  | some s =>
    let s := { s with PerpendicularPlane := false }
    let normal := s.StartNormal
    let v : Vec3 := fun k => cursor.CameraFocalPoint k - cursor.CameraPosition k
    let v := Normalize cursor.sqrt v
    let normal := Normalize cursor.sqrt normal
    let v := Cross normal v
    if Dot v v < 0.2 then some { s with PerpendicularPlane := true } else some s

/-! ## `StopAction` -/

/-- `vtkPushPlaneAction::StopAction`: the body is the superclass call alone.  The
superclass is outside the file and reaches its own members only; `superStop` is
what it does to the two of them the model carries. -/
def StopAction (superStop : Vec3 × (ℚ × ℚ) → Vec3 × (ℚ × ℚ)) (s : vtkPushPlaneAction) :
    vtkPushPlaneAction :=
  { s with
    StartPosition := (superStop (s.StartPosition, s.StartDisplayPosition)).1
    StartDisplayPosition := (superStop (s.StartPosition, s.StartDisplayPosition)).2 }

/-! ## `DoAction` -/

/-- Modelled from the spec: `IsPlaneValid` is declared in the class header,
which is not among the sources; the spec makes the plane index either an
integer `≥ 0` or the sentinel "none", and a valid plane is one whose index is
not the sentinel. -/
def IsPlaneValid (s : vtkPushPlaneAction) : Bool := decide (0 ≤ s.PlaneId)

/-- Lines 152-163 of `DoAction`: the push distance when the plane is
perpendicular to the view normal. -/
def PerpendicularDistance (sqrt : ℚ → ℚ) (p1 p2 : Vec3) (x ox : ℚ)
    (viewRay normal : Vec3) : ℚ :=
  let distance := sqrt (Distance2BetweenPoints p1 p2)
  let distance := if x - ox < 0 then -distance else distance
  if Dot viewRay normal < 0 then -distance else distance

/-- Lines 167-184 of `DoAction`: the push distance in the general case. -/
def GeneralDistance (p1 p2 normal viewRay : Vec3) : ℚ :=
  let u : Vec3 := fun k => p2 k - p1 k
  let a := Dot normal normal
  let b := Dot normal viewRay
  let c := Dot viewRay viewRay
  let d := Dot normal u
  let e := Dot viewRay u
  (c * d - b * e) / (a * c - b * b)

/-- Line 184 of `DoAction`: the divisor `a*c - b*b` of the general case. -/
def GeneralDenominator (normal viewRay : Vec3) : ℚ :=
  Dot normal normal * Dot viewRay viewRay - Dot normal viewRay * Dot normal viewRay

/-- Lines 118-185 of `DoAction`: the push distance for display position `pos`. -/
def PushDistance (cursor : vtkSurfaceCursor) (s : vtkPushPlaneAction) (pos : ℚ × ℚ) : ℚ :=
  let normal := Normalize cursor.sqrt s.StartNormal
  let oz := (cursor.WorldToDisplay s.StartPosition).2.2
  let ox := s.StartDisplayPosition.1
  let oy := s.StartDisplayPosition.2
  let x := pos.1
  let y := if s.PerpendicularPlane then oy else pos.2
  let p1 := cursor.DisplayToWorld ox oy oz
  let ray := cursor.GetViewRay x y oz
  let p2 := ray.1
  let viewRay := ray.2
  if s.PerpendicularPlane then PerpendicularDistance cursor.sqrt p1 p2 x ox viewRay normal
  else GeneralDistance p1 p2 normal viewRay

/-- `vtkPushPlaneAction::DoAction` with the cursor at display position `pos`
(the superclass call refreshes `DisplayPosition`, here an argument). -/
def DoAction (cursor : vtkSurfaceCursor) (s : vtkPushPlaneAction) (pos : ℚ × ℚ) :
    Option vtkPushPlaneAction :=
  if IsPlaneValid s then
    let normal := Normalize cursor.sqrt s.StartNormal
    let distance := PushDistance cursor s pos
    SetOrigin s (fun k => s.StartOrigin k + distance * normal k)
  else some s

/-! ## Sequences of calls, the properties' own vocabulary, concrete scenes -/

/-- Successive calls of `SetOrigin` with the origins of `os`, stopping at a fault. -/
def SetOrigins (s : vtkPushPlaneAction) (os : List Vec3) : Option vtkPushPlaneAction :=
  os.foldlM SetOrigin s

/-- The transform of a prop whose matrix is the identity (applied in the scenes
below to points only). -/
def identityTransform : vtkTransform :=
  { TransformPoint := id, TransformNormal := id, InverseTransformPoint := id }

/-- A volume whose data occupy `[2,10]` on every axis with spacing 1, and whose
cropping region is the one VTK constructs a volume mapper with,
`(0,1,0,1,0,1)`; plane 0 is picked. -/
def defaultRegionVolume : vtkPushPlaneAction :=
  { Transform := identityTransform
    ImageActor := none
    VolumeMapper := some
      { ClippingPlanes := none
        CroppingRegionPlanes := ![0, 1, 0, 1, 0, 1]
        Bounds := ![2, 10, 2, 10, 2, 10]
        Input := some
          { Origin := ![2, 2, 2]
            Spacing := ![1, 1, 1]
            WholeExtent := ![0, 8, 0, 8, 0, 8] } }
    Mapper := none
    PlaneId := 0
    PerpendicularPlane := false
    StartNormal := ![1, 0, 0]
    StartOrigin := ![0, 1 / 2, 1 / 2]
    StartPosition := ![0, 1 / 2, 1 / 2]
    StartDisplayPosition := (0, 0) }

/-- The properties' "clamped to `[lo, hi]`": raised to `lo`, then lowered to
`hi`.  For `lo ≤ hi` this is the one point of `[lo, hi]` nearest to `x`
(`ClampTo_eq_max_min`, `ClampTo_mem`). -/
def ClampTo (x lo hi : ℚ) : ℚ := min (max x lo) hi

/-- The properties' clamp of a cropping plane onto its feasible interval: for the
plane `2i` the minimum of `x`, `region[2i+1] - t` and `bounds[2i+1] - t`, for the
plane `2i+1` the maximum of `x`, `region[2i] + t` and `bounds[2i] + t`, then
clamped to `[bounds[2i], bounds[2i+1]]`. -/
def FeasibleClamp (region bounds : Vec6) (t : ℚ) (p : Fin 6) (x : ℚ) : ℚ :=
  if p = lowerIndex (axisOf p) then
    ClampTo (min x (min (region (upperIndex (axisOf p)) - t) (bounds (upperIndex (axisOf p)) - t)))
      (bounds (lowerIndex (axisOf p))) (bounds (upperIndex (axisOf p)))
  else
    ClampTo (max x (max (region (lowerIndex (axisOf p)) + t) (bounds (lowerIndex (axisOf p)) + t)))
      (bounds (lowerIndex (axisOf p))) (bounds (upperIndex (axisOf p)))

/-- An axis-aligned cropping box: data bounds `(0,10,0,10,0,10)`, spacing 1 on
every axis, region `(1,9,1,9,1,9)`, identity transform; plane 0 is active. -/
def croppingBox : vtkPushPlaneAction :=
  { Transform := identityTransform
    ImageActor := none
    VolumeMapper := some
      { ClippingPlanes := none
        CroppingRegionPlanes := ![1, 9, 1, 9, 1, 9]
        Bounds := ![0, 10, 0, 10, 0, 10]
        Input := some
          { Origin := ![0, 0, 0]
            Spacing := ![1, 1, 1]
            WholeExtent := ![0, 10, 0, 10, 0, 10] } }
    Mapper := none
    PlaneId := 0
    PerpendicularPlane := false
    StartNormal := ![1, 0, 0]
    StartOrigin := ![1, 5, 5]
    StartPosition := ![1, 5, 5]
    StartDisplayPosition := (0, 0) }

/-- The properties' "nearest integer, ties rounded up". -/
def NearestIndex (x : ℚ) : ℤ := ⌊x + 1 / 2⌋

/-- The properties' clamped slice coordinate on axis `i` for local coordinate
`oi`: `clamp((oi - dataOrigin[i]) / dataSpacing[i], wholeExtent[2i], wholeExtent[2i+1])`. -/
def ClampedSliceCoordinate (data : vtkImageData) (i : Fin 3) (oi : ℚ) : ℚ :=
  ClampTo ((oi - data.Origin i) / data.Spacing i)
    (data.WholeExtent (lowerIndex i)) (data.WholeExtent (upperIndex i))

/-- An image slice with data origin `(0,0,0)`, spacing `(1,1,1)` and whole
extent `(0,9,0,9,0,0)`, one slice thick along Z; plane 4 is active. -/
def singleSliceImage : vtkPushPlaneAction :=
  { Transform := identityTransform
    ImageActor := some
      { Input := some
          { Origin := ![0, 0, 0]
            Spacing := ![1, 1, 1]
            WholeExtent := ![0, 9, 0, 9, 0, 0] }
        DisplayExtent := ![0, 9, 0, 9, 0, 0]
        DisplayBounds := ![0, 9, 0, 9, 0, 0] }
    VolumeMapper := none
    Mapper := none
    PlaneId := 4
    PerpendicularPlane := false
    StartNormal := ![0, 0, 1]
    StartOrigin := ![9 / 2, 9 / 2, 0]
    StartPosition := ![9 / 2, 9 / 2, 0]
    StartDisplayPosition := (0, 0) }

/-- The action as its constructor leaves it (lines 36-53), with the superclass
members at zero. -/
def New : vtkPushPlaneAction :=
  { Transform := identityTransform
    ImageActor := none
    VolumeMapper := none
    Mapper := none
    PlaneId := -1
    PerpendicularPlane := false
    StartNormal := ![0, 0, 1]
    StartOrigin := ![0, 0, 0]
    StartPosition := ![0, 0, 0]
    StartDisplayPosition := (0, 0) }

/-- A scene seen from the front in parallel projection: the camera looks down
the Z axis, display coordinates are world coordinates, and the picker reports a
mapper with one clipping plane, through the origin with normal `(1,0,0)`. -/
def frontCursor : vtkSurfaceCursor :=
  { sqrt := Rat.sqrt
    Picker :=
      { Prop3Ds := [{ Matrix := identityTransform, ImageActor := none }]
        Mapper := some (.other
          { ClippingPlanes := some [{ Origin := ![0, 0, 0], Normal := ![1, 0, 0] }] })
        CroppingPlaneId := -1
        ClippingPlaneId := 0 }
    CameraPosition := ![0, 0, 10]
    CameraFocalPoint := ![0, 0, 0]
    WorldToDisplay := fun w => (w 0, w 1, w 2)
    DisplayToWorld := fun x y z => ![x, y, z]
    GetViewRay := fun x y z => (![x, y, z], ![0, 0, -1]) }

/-- The action of `frontCursor` after the gesture has started on its clipping
plane. -/
def clippingGesture : vtkPushPlaneAction :=
  { Transform := identityTransform
    ImageActor := none
    VolumeMapper := none
    Mapper := some { ClippingPlanes := some [{ Origin := ![0, 0, 0], Normal := ![1, 0, 0] }] }
    PlaneId := 0
    PerpendicularPlane := false
    StartNormal := ![1, 0, 0]
    StartOrigin := ![0, 0, 0]
    StartPosition := ![0, 0, 0]
    StartDisplayPosition := (0, 0) }

/-- A clipping-plane owner with a valid plane index: the mapper has a plane
collection and `PlaneId` indexes it. -/
def IsClippingPlaneOwner (s : vtkPushPlaneAction) : Prop :=
  0 ≤ s.PlaneId ∧ ∃ mapper planes, s.Mapper = some mapper ∧
    mapper.ClippingPlanes = some planes ∧ s.PlaneId.toNat < planes.length

/-- A cropping-region owner with a valid plane index. -/
def IsCroppingRegionOwner (s : vtkPushPlaneAction) : Prop :=
  0 ≤ s.PlaneId ∧ s.PlaneId < 6 ∧ s.Mapper = none ∧ s.ImageActor = none ∧
    ∃ vm, s.VolumeMapper = some vm

/-- A slice-extent owner (an image actor with input data) with a valid plane
index. -/
def IsSliceExtentOwner (s : vtkPushPlaneAction) : Prop :=
  0 ≤ s.PlaneId ∧ s.PlaneId < 6 ∧ s.Mapper = none ∧
    ∃ actor data, s.ImageActor = some actor ∧ actor.Input = some data

/-- The scene of `frontCursor` with nothing under the cursor: the picker's
collection of picked props is empty and it reports no mapper and no plane. -/
def emptyPickCursor : vtkSurfaceCursor :=
  { frontCursor with
    Picker :=
      { Prop3Ds := []
        Mapper := none
        CroppingPlaneId := -1
        ClippingPlaneId := -1 } }

/-- The scene of `frontCursor` with an image actor under the cursor whose
display extent `(0,9,0,0,0,0)` is one index thick along Y and along Z. -/
def rowImageCursor : vtkSurfaceCursor :=
  { frontCursor with
    Picker :=
      { Prop3Ds :=
          [{ Matrix := identityTransform
             ImageActor := some
               { Input := some
                   { Origin := ![0, 0, 0]
                     Spacing := ![1, 1, 1]
                     WholeExtent := ![0, 9, 0, 9, 0, 9] }
                 DisplayExtent := ![0, 9, 0, 0, 0, 0]
                 DisplayBounds := ![0, 9, 0, 0, 0, 0] } }]
        Mapper := none
        CroppingPlaneId := -1
        ClippingPlaneId := -1 } }

/-- A gesture of `frontCursor` on a clipping plane that faces the camera
(normal `(0,0,1)`), classified as perpendicular. -/
def perpendicularGesture : vtkPushPlaneAction :=
  { Transform := identityTransform
    ImageActor := none
    VolumeMapper := none
    Mapper := some { ClippingPlanes := some [{ Origin := ![0, 0, 0], Normal := ![0, 0, 1] }] }
    PlaneId := 0
    PerpendicularPlane := true
    StartNormal := ![0, 0, 1]
    StartOrigin := ![0, 0, 0]
    StartPosition := ![0, 0, 0]
    StartDisplayPosition := (0, 0) }

/-- The cached gesture state of `s'` is that of `s`: start origin, start normal,
plane index and perpendicular flag. -/
def SameGestureCache (s s' : vtkPushPlaneAction) : Prop :=
  s'.StartOrigin = s.StartOrigin ∧ s'.StartNormal = s.StartNormal ∧
    s'.PlaneId = s.PlaneId ∧ s'.PerpendicularPlane = s.PerpendicularPlane

/-! ## Unfolding `SetOrigin` on each kind of target -/

theorem SetOrigin_clipping (s : vtkPushPlaneAction) (mapper : vtkAbstractMapper3D)
    (planes : List vtkPlane) (plane : vtkPlane) (o : Vec3) (hM : s.Mapper = some mapper)
    (hP : mapper.ClippingPlanes = some planes) (hp : 0 ≤ s.PlaneId)
    (hpl : planes[s.PlaneId.toNat]? = some plane) :
    SetOrigin s o = some { s with
      Mapper := some { mapper with
        ClippingPlanes := some (planes.set s.PlaneId.toNat { plane with Origin := o }) } } := by
  simp only [SetOrigin, if_neg (not_lt.mpr hp), hM, hP, hpl]

theorem SetOrigin_slice (s : vtkPushPlaneAction) (actor : vtkImageActor)
    (data : vtkImageData) (p : Fin 6) (o : Vec3) (hM : s.Mapper = none)
    (hI : s.ImageActor = some actor) (hD : actor.Input = some data)
    (hp : s.PlaneId = (p.val : ℤ)) :
    SetOrigin s o = some { s with
      ImageActor := some { actor with
        DisplayExtent :=
          Function.update
            (Function.update actor.DisplayExtent (upperIndex (axisOf p))
              (SliceIndex data (axisOf p) (s.Transform.InverseTransformPoint o (axisOf p))))
            (lowerIndex (axisOf p))
            (SliceIndex data (axisOf p) (s.Transform.InverseTransformPoint o (axisOf p))) } } := by
  have h0 : ¬ s.PlaneId < 0 := by rw [hp]; exact not_lt.mpr (Int.natCast_nonneg _)
  have hn : s.PlaneId.toNat = p.val := by rw [hp]; exact Int.toNat_natCast _
  have h6 : s.PlaneId.toNat < 6 := by rw [hn]; exact p.isLt
  have hfin : (⟨s.PlaneId.toNat, h6⟩ : Fin 6) = p := Fin.ext hn
  simp only [SetOrigin, if_neg h0, hM, hI, hD, dif_pos h6, hfin]

theorem SetOrigin_cropping (s : vtkPushPlaneAction) (vm : vtkVolumeMapper) (p : Fin 6)
    (o : Vec3) (hM : s.Mapper = none) (hI : s.ImageActor = none)
    (hV : s.VolumeMapper = some vm) (hp : s.PlaneId = (p.val : ℤ)) :
    SetOrigin s o = some { s with
      VolumeMapper := some { vm with
        CroppingRegionPlanes := Function.update vm.CroppingRegionPlanes p
          (CroppingPlanePosition vm.CroppingRegionPlanes vm.Bounds
            (MinimumThickness vm (axisOf p)) p
            (s.Transform.InverseTransformPoint o (axisOf p))) } } := by
  have h0 : ¬ s.PlaneId < 0 := by rw [hp]; exact not_lt.mpr (Int.natCast_nonneg _)
  have hn : s.PlaneId.toNat = p.val := by rw [hp]; exact Int.toNat_natCast _
  have h6 : s.PlaneId.toNat < 6 := by rw [hn]; exact p.isLt
  have hfin : (⟨s.PlaneId.toNat, h6⟩ : Fin 6) = p := Fin.ext hn
  simp only [SetOrigin, if_neg h0, hM, hI, hV, dif_pos h6, hfin]

/-! ## Index arithmetic -/

theorem axisOf_lowerIndex (i : Fin 3) : axisOf (lowerIndex i) = i := by
  apply Fin.ext
  simp only [axisOf, lowerIndex]
  omega

theorem axisOf_upperIndex (i : Fin 3) : axisOf (upperIndex i) = i := by
  apply Fin.ext
  simp only [axisOf, upperIndex]
  omega

theorem lowerIndex_ne_upperIndex (i j : Fin 3) : lowerIndex i ≠ upperIndex j := by
  intro h
  have := congrArg Fin.val h
  simp only [lowerIndex, upperIndex] at this
  omega

theorem plane_cases (p : Fin 6) :
    p = lowerIndex (axisOf p) ∨ p = upperIndex (axisOf p) := by
  rcases Nat.mod_two_eq_zero_or_one p.val with h | h
  · left
    apply Fin.ext
    simp only [axisOf, lowerIndex]
    omega
  · right
    apply Fin.ext
    simp only [axisOf, upperIndex]
    omega

/-! ## The cropping clamp as `min` and `max` -/

theorem ite_gt_eq_min (x a : ℚ) : (if x > a then a else x) = min x a := by
  rcases le_or_lt x a with h | h
  · rw [if_neg (not_lt.mpr h), min_eq_left h]
  · rw [if_pos h, min_eq_right h.le]

theorem ite_lt_eq_max (x a : ℚ) : (if x < a then a else x) = max x a := by
  rcases le_or_lt a x with h | h
  · rw [if_neg (not_lt.mpr h), max_eq_left h]
  · rw [if_pos h, max_eq_right h.le]

theorem CroppingPlanePosition_lower (region bounds : Vec6) (t : ℚ) (i : Fin 3) (x0 : ℚ) :
    CroppingPlanePosition region bounds t (lowerIndex i) x0 =
      min (max (min (min x0 (region (upperIndex i) - t)) (bounds (upperIndex i) - t))
        (bounds (lowerIndex i))) (bounds (upperIndex i)) := by
  have he : (lowerIndex i).val = 2 * i.val := rfl
  simp only [CroppingPlanePosition, axisOf_lowerIndex, if_pos he, ite_gt_eq_min,
    ite_lt_eq_max]

theorem CroppingPlanePosition_upper (region bounds : Vec6) (t : ℚ) (i : Fin 3) (x0 : ℚ) :
    CroppingPlanePosition region bounds t (upperIndex i) x0 =
      min (max (max (max x0 (region (lowerIndex i) + t)) (bounds (lowerIndex i) + t))
        (bounds (lowerIndex i))) (bounds (upperIndex i)) := by
  have he : ¬ (upperIndex i).val = 2 * i.val := by
    simp only [upperIndex]; omega
  simp only [CroppingPlanePosition, axisOf_upperIndex, if_neg he, ite_gt_eq_min,
    ite_lt_eq_max]

/-! ## C1: the thickness of the cropping region on the active axis -/

theorem CroppingPlanePosition_keeps_thickness (region bounds : Vec6) (t : ℚ) (p : Fin 6)
    (x0 : ℚ)
    (hlow : p = lowerIndex (axisOf p) →
      bounds (lowerIndex (axisOf p)) + t ≤ region (upperIndex (axisOf p)))
    (hup : p = upperIndex (axisOf p) →
      region (lowerIndex (axisOf p)) + t ≤ bounds (upperIndex (axisOf p))) :
    Function.update region p (CroppingPlanePosition region bounds t p x0)
        (lowerIndex (axisOf p)) + t ≤
      Function.update region p (CroppingPlanePosition region bounds t p x0)
        (upperIndex (axisOf p)) := by
  rcases plane_cases p with h | h
  · have hroom := hlow h
    generalize axisOf p = i at h hroom ⊢
    subst h
    rw [Function.update_same,
      Function.update_noteq (lowerIndex_ne_upperIndex i i).symm,
      CroppingPlanePosition_lower]
    have h1 : min (max (min (min x0 (region (upperIndex i) - t)) (bounds (upperIndex i) - t))
        (bounds (lowerIndex i))) (bounds (upperIndex i)) ≤
        max (min (min x0 (region (upperIndex i) - t)) (bounds (upperIndex i) - t))
          (bounds (lowerIndex i)) := min_le_left _ _
    have h2 : max (min (min x0 (region (upperIndex i) - t)) (bounds (upperIndex i) - t))
        (bounds (lowerIndex i)) ≤ region (upperIndex i) - t := by
      apply max_le
      · exact le_trans (min_le_left _ _) (min_le_right _ _)
      · linarith
    linarith
  · have hroom := hup h
    generalize axisOf p = i at h hroom ⊢
    subst h
    rw [Function.update_same, Function.update_noteq (lowerIndex_ne_upperIndex i i),
      CroppingPlanePosition_upper]
    have h1 : region (lowerIndex i) + t ≤
        max (max (max x0 (region (lowerIndex i) + t)) (bounds (lowerIndex i) + t))
          (bounds (lowerIndex i)) :=
      le_trans (le_trans (le_max_right _ _) (le_max_left _ _)) (le_max_left _ _)
    exact le_min h1 hroom

/-- Claim C1, as stated, fails: on a volume with data bounds `[2,10]`, spacing 1
and the region `(0,1,...)` a mapper is constructed with (so that
`region[0] + t ≤ region[1]` holds before the write), writing plane 0 at its own
position commits `region[0] = 2`, `region[1] = 1`, and `2 + 1 ≤ 1` is false. -/
theorem cropping_thickness_counterexample :
    ((SetOrigin defaultRegionVolume ![0, 1 / 2, 1 / 2]).bind
        (fun s => s.VolumeMapper)).map
      (fun vm => (vm.CroppingRegionPlanes 0, vm.CroppingRegionPlanes 1,
        decide (vm.CroppingRegionPlanes 0 + 1 ≤ vm.CroppingRegionPlanes 1))) =
      some (2, 1, false) := by
  rw [SetOrigin_cropping defaultRegionVolume _ 0 _ rfl rfl rfl rfl]
  have ha : axisOf (0 : Fin 6) = 0 := rfl
  have hl : lowerIndex (0 : Fin 3) = 0 := rfl
  have hu : upperIndex (0 : Fin 3) = 1 := rfl
  simp only [Option.some_bind, Option.map_some', CroppingPlanePosition, MinimumThickness,
    defaultRegionVolume, identityTransform, ha, hl, hu]
  norm_num

/-- Claim C1 (amended): on a cropping-region owner with plane index `p` (axis
`i = p/2`, thickness `t`), if the plane opposite to the active one leaves room
for the active plane inside the data bounds (`bounds[2i] + t ≤ region[2i+1]`
when `p = 2i`, `region[2i] + t ≤ bounds[2i+1]` when `p = 2i+1`), then every
non-empty sequence of writes returns, and the region it commits satisfies
`region[2i] + t ≤ region[2i+1]`.  Every non-empty prefix of a sequence is such a
sequence, so this holds after each write. -/
theorem cropping_writeback_keeps_thickness (s : vtkPushPlaneAction) (vm : vtkVolumeMapper)
    (p : Fin 6) (os : List Vec3)
    (hM : s.Mapper = none) (hI : s.ImageActor = none) (hV : s.VolumeMapper = some vm)
    (hp : s.PlaneId = (p.val : ℤ))
    (hlow : p = lowerIndex (axisOf p) →
      vm.Bounds (lowerIndex (axisOf p)) + MinimumThickness vm (axisOf p) ≤
        vm.CroppingRegionPlanes (upperIndex (axisOf p)))
    (hup : p = upperIndex (axisOf p) →
      vm.CroppingRegionPlanes (lowerIndex (axisOf p)) + MinimumThickness vm (axisOf p) ≤
        vm.Bounds (upperIndex (axisOf p)))
    (hos : os ≠ []) :
    ∃ s' vm', SetOrigins s os = some s' ∧ s'.VolumeMapper = some vm' ∧
      vm'.CroppingRegionPlanes (lowerIndex (axisOf p)) + MinimumThickness vm (axisOf p) ≤
        vm'.CroppingRegionPlanes (upperIndex (axisOf p)) := by
  induction os generalizing s vm with
  | nil => exact absurd rfl hos
  | cons o rest ih =>
    have hstep := SetOrigin_cropping s vm p o hM hI hV hp
    have hkeep := CroppingPlanePosition_keeps_thickness vm.CroppingRegionPlanes vm.Bounds
      (MinimumThickness vm (axisOf p)) p (s.Transform.InverseTransformPoint o (axisOf p))
      hlow hup
    have hseq : SetOrigins s (o :: rest) = (SetOrigin s o).bind (fun s1 => SetOrigins s1 rest) :=
      List.foldlM_cons ..
    rw [hseq, hstep, Option.some_bind]
    rcases rest with _ | ⟨o2, rest2⟩
    · exact ⟨_, _, rfl, rfl, hkeep⟩
    · have hne1 : p = lowerIndex (axisOf p) → upperIndex (axisOf p) ≠ p := fun h e =>
        lowerIndex_ne_upperIndex _ _ (h.symm.trans e.symm)
      have hne2 : p = upperIndex (axisOf p) → lowerIndex (axisOf p) ≠ p := fun h e =>
        lowerIndex_ne_upperIndex _ _ (e.trans h)
      exact ih
        { s with
          VolumeMapper := some { vm with
            CroppingRegionPlanes := Function.update vm.CroppingRegionPlanes p
              (CroppingPlanePosition vm.CroppingRegionPlanes vm.Bounds
                (MinimumThickness vm (axisOf p)) p
                (s.Transform.InverseTransformPoint o (axisOf p))) } }
        { vm with
          CroppingRegionPlanes := Function.update vm.CroppingRegionPlanes p
            (CroppingPlanePosition vm.CroppingRegionPlanes vm.Bounds
              (MinimumThickness vm (axisOf p)) p
              (s.Transform.InverseTransformPoint o (axisOf p))) }
        hM hI rfl hp
        (fun h => by
          show vm.Bounds _ + MinimumThickness vm (axisOf p) ≤
            Function.update vm.CroppingRegionPlanes p _ _
          rw [Function.update_noteq (hne1 h)]
          exact hlow h)
        (fun h => by
          show Function.update vm.CroppingRegionPlanes p _ _ +
            MinimumThickness vm (axisOf p) ≤ vm.Bounds _
          rw [Function.update_noteq (hne2 h)]
          exact hup h)
        (List.cons_ne_nil _ _)

theorem cropping_writeback_keeps_thickness_witness :
    ∃ s' vm',
      SetOrigins { defaultRegionVolume with PlaneId := 1 } [![0, 0, 0], ![20, 0, 0]] = some s' ∧
      s'.VolumeMapper = some vm' ∧
      vm'.CroppingRegionPlanes 0 + 1 ≤ vm'.CroppingRegionPlanes 1 :=
  cropping_writeback_keeps_thickness { defaultRegionVolume with PlaneId := 1 }
    { ClippingPlanes := none
      CroppingRegionPlanes := ![0, 1, 0, 1, 0, 1]
      Bounds := ![2, 10, 2, 10, 2, 10]
      Input := some
        { Origin := ![2, 2, 2]
          Spacing := ![1, 1, 1]
          WholeExtent := ![0, 8, 0, 8, 0, 8] } }
    1 [![0, 0, 0], ![20, 0, 0]] rfl rfl rfl rfl
    (fun h => absurd h (by decide))
    (fun _ => by
      show (![0, 1, 0, 1, 0, 1] : Vec6) 0 + 1 ≤ (![2, 10, 2, 10, 2, 10] : Vec6) 1
      norm_num)
    (by simp)

/-! ## Clamping and rounding -/

theorem ClampTo_eq_max_min (x lo hi : ℚ) (h : lo ≤ hi) :
    ClampTo x lo hi = max lo (min x hi) := by
  unfold ClampTo
  rcases le_total x lo with h1 | h1
  · rw [max_eq_right h1, min_eq_left h, min_eq_left (h1.trans h), max_eq_left h1]
  · rw [max_eq_left h1]
    exact (max_eq_right (le_min h1 h)).symm

theorem ClampTo_mem (x lo hi : ℚ) (h : lo ≤ hi) :
    lo ≤ ClampTo x lo hi ∧ ClampTo x lo hi ≤ hi :=
  ⟨le_min (le_max_right _ _) h, min_le_right _ _⟩

theorem round_eq_NearestIndex (x : ℚ) :
    (if x - ((⌊x⌋ : ℤ) : ℚ) ≥ 0.5 then ⌊x⌋ + 1 else ⌊x⌋) = NearestIndex x := by
  have h1 := Int.floor_le x
  have h2 := Int.lt_floor_add_one x
  have hhalf : (0.5 : ℚ) = 1 / 2 := by norm_num
  unfold NearestIndex
  rw [hhalf]
  by_cases h : x - ((⌊x⌋ : ℤ) : ℚ) ≥ 1 / 2
  · rw [if_pos h]
    symm
    rw [Int.floor_eq_iff]
    push_cast
    constructor <;> linarith
  · rw [if_neg h]
    rw [not_le] at h
    symm
    rw [Int.floor_eq_iff]
    constructor <;> linarith

theorem SliceIndex_eq (data : vtkImageData) (i : Fin 3) (oi : ℚ) :
    SliceIndex data i oi =
      NearestIndex (ClampTo ((oi - data.Origin i) / data.Spacing i)
        (data.WholeExtent (lowerIndex i)) (data.WholeExtent (upperIndex i))) := by
  simp only [SliceIndex, ite_gt_eq_min, ite_lt_eq_max]
  exact round_eq_NearestIndex _

theorem NearestIndex_close (x : ℚ) : |(NearestIndex x : ℚ) - x| ≤ 1 / 2 := by
  have h1 := Int.floor_le (x + 1 / 2)
  have h2 := Int.lt_floor_add_one (x + 1 / 2)
  unfold NearestIndex
  rw [abs_le]
  constructor <;> linarith

theorem NearestIndex_nearest (x : ℚ) (n : ℤ) :
    |(NearestIndex x : ℚ) - x| ≤ |(n : ℚ) - x| := by
  rcases eq_or_ne n (NearestIndex x) with h | h
  · rw [h]
  · have hc := NearestIndex_close x
    have hd : (1 : ℚ) ≤ |(n : ℚ) - (NearestIndex x : ℚ)| := by
      have : (1 : ℤ) ≤ |n - NearestIndex x| := Int.one_le_abs (sub_ne_zero.mpr h)
      exact_mod_cast this
    have ht : |(n : ℚ) - (NearestIndex x : ℚ)| ≤
        |(n : ℚ) - x| + |(NearestIndex x : ℚ) - x| := by
      have := abs_sub_le (n : ℚ) x (NearestIndex x : ℚ)
      rwa [abs_sub_comm x (NearestIndex x : ℚ)] at this
    linarith

theorem NearestIndex_mem (x : ℚ) (lo hi : ℤ) (h1 : (lo : ℚ) ≤ x) (h2 : x ≤ (hi : ℚ)) :
    lo ≤ NearestIndex x ∧ NearestIndex x ≤ hi := by
  unfold NearestIndex
  constructor
  · rw [Int.le_floor]
    linarith
  · have : ⌊x + 1 / 2⌋ < hi + 1 := by
      rw [Int.floor_lt]
      push_cast
      linarith
    omega

theorem CroppingPlanePosition_eq_FeasibleClamp (region bounds : Vec6) (t : ℚ) (p : Fin 6)
    (x : ℚ) : CroppingPlanePosition region bounds t p x = FeasibleClamp region bounds t p x := by
  rcases plane_cases p with h | h
  · rw [FeasibleClamp, if_pos h]
    generalize axisOf p = i at h ⊢
    subst h
    rw [CroppingPlanePosition_lower, ClampTo, min_assoc]
  · have hne : ¬ p = lowerIndex (axisOf p) := fun e =>
      lowerIndex_ne_upperIndex _ _ (e.symm.trans h)
    rw [FeasibleClamp, if_neg hne]
    generalize axisOf p = i at h ⊢
    subst h
    rw [CroppingPlanePosition_upper, ClampTo]
    simp only [max_assoc]

/-! ## C2: the slice stays collapsed and inside the whole extent -/

/-- Claim C2: on an image-slice target with plane index `p` (axis `i = p/2`),
non-zero data spacing on axis `i` and `wholeExtent[2i] ≤ wholeExtent[2i+1]`,
`SetOrigin` returns for every new origin, and the display extent it commits has
`displayExtent[2i] = displayExtent[2i+1]`, an index of
`[wholeExtent[2i], wholeExtent[2i+1]]`. -/
theorem slice_writeback_collapsed_in_whole_extent (s : vtkPushPlaneAction)
    (actor : vtkImageActor) (data : vtkImageData) (p : Fin 6) (o : Vec3)
    (hM : s.Mapper = none) (hI : s.ImageActor = some actor) (hD : actor.Input = some data)
    (hp : s.PlaneId = (p.val : ℤ))
    (_hsp : data.Spacing (axisOf p) ≠ 0)
    (hw : data.WholeExtent (lowerIndex (axisOf p)) ≤ data.WholeExtent (upperIndex (axisOf p))) :
    ∃ s' actor', SetOrigin s o = some s' ∧ s'.ImageActor = some actor' ∧
      actor'.DisplayExtent (lowerIndex (axisOf p)) =
        actor'.DisplayExtent (upperIndex (axisOf p)) ∧
      data.WholeExtent (lowerIndex (axisOf p)) ≤ actor'.DisplayExtent (lowerIndex (axisOf p)) ∧
      actor'.DisplayExtent (lowerIndex (axisOf p)) ≤ data.WholeExtent (upperIndex (axisOf p)) := by
  have hw' : (data.WholeExtent (lowerIndex (axisOf p)) : ℚ) ≤
      (data.WholeExtent (upperIndex (axisOf p)) : ℚ) := by exact_mod_cast hw
  have hmem := ClampTo_mem
    ((s.Transform.InverseTransformPoint o (axisOf p) - data.Origin (axisOf p)) /
      data.Spacing (axisOf p)) _ _ hw'
  have hidx := NearestIndex_mem _ _ _ hmem.1 hmem.2
  rw [← SliceIndex_eq] at hidx
  refine ⟨_, _, SetOrigin_slice s actor data p o hM hI hD hp, rfl, ?_, ?_, ?_⟩
  · dsimp only
    rw [Function.update_same,
      Function.update_noteq (lowerIndex_ne_upperIndex _ _).symm, Function.update_same]
  · dsimp only
    rw [Function.update_same]
    exact hidx.1
  · dsimp only
    rw [Function.update_same]
    exact hidx.2

theorem slice_writeback_collapsed_in_whole_extent_witness :
    ∃ s' actor', SetOrigin singleSliceImage ![0, 0, -3] = some s' ∧
      s'.ImageActor = some actor' ∧
      actor'.DisplayExtent 4 = actor'.DisplayExtent 5 ∧
      (0 : ℤ) ≤ actor'.DisplayExtent 4 ∧ actor'.DisplayExtent 4 ≤ (0 : ℤ) :=
  slice_writeback_collapsed_in_whole_extent singleSliceImage
    { Input := some
        { Origin := ![0, 0, 0]
          Spacing := ![1, 1, 1]
          WholeExtent := ![0, 9, 0, 9, 0, 0] }
      DisplayExtent := ![0, 9, 0, 9, 0, 0]
      DisplayBounds := ![0, 9, 0, 9, 0, 0] }
    { Origin := ![0, 0, 0]
      Spacing := ![1, 1, 1]
      WholeExtent := ![0, 9, 0, 9, 0, 0] }
    4 ![0, 0, -3] rfl rfl rfl rfl
    (by show (![1, 1, 1] : Vec3) 2 ≠ 0; norm_num)
    (by show (![0, 9, 0, 9, 0, 0] : Ext6) 4 ≤ (![0, 9, 0, 9, 0, 0] : Ext6) 5; decide)

/-! ## C3: the cropping write-back is a clamp onto the feasible interval -/

/-- Claim C3: on a cropping-region owner with plane index `p` (axis `i = p/2`),
with `x` the local coordinate of the new origin on axis `i` and `t` the spacing
of the input on axis `i` (1 without input), `SetOrigin` returns and changes the
region at `p` only, where it stores `FeasibleClamp region bounds t p x`: the
minimum of `x`, `region[2i+1] - t`, `bounds[2i+1] - t` (plane `2i`) or the
maximum of `x`, `region[2i] + t`, `bounds[2i] + t` (plane `2i+1`), clamped to
`[bounds[2i], bounds[2i+1]]`.  On the box with bounds `(0,10,0,10,0,10)`, spacing
1, region `(1,9,1,9,1,9)` and identity transform, writing plane 0 towards
`x = 12` stores 8. -/
theorem cropping_writeback_is_feasible_clamp :
    (∀ (s : vtkPushPlaneAction) (vm : vtkVolumeMapper) (p : Fin 6) (o : Vec3) (t : ℚ),
      s.Mapper = none → s.ImageActor = none → s.VolumeMapper = some vm →
      s.PlaneId = (p.val : ℤ) →
      t = (vm.Input.map (fun data => data.Spacing (axisOf p))).getD 1 →
      SetOrigin s o = some { s with
        VolumeMapper := some { vm with
          CroppingRegionPlanes := Function.update vm.CroppingRegionPlanes p
            (FeasibleClamp vm.CroppingRegionPlanes vm.Bounds t p
              (s.Transform.InverseTransformPoint o (axisOf p))) } }) ∧
    ((SetOrigin croppingBox ![12, 5, 5]).bind (fun s => s.VolumeMapper)).map
      (fun vm => vm.CroppingRegionPlanes 0) = some 8 := by
  constructor
  · intro s vm p o t hM hI hV hp ht
    have hthick : MinimumThickness vm (axisOf p) = t := by
      rw [ht, MinimumThickness]
      cases vm.Input <;> rfl
    rw [SetOrigin_cropping s vm p o hM hI hV hp, CroppingPlanePosition_eq_FeasibleClamp,
      hthick]
  · rw [SetOrigin_cropping croppingBox _ 0 _ rfl rfl rfl rfl]
    have ha : axisOf (0 : Fin 6) = 0 := rfl
    have hl : lowerIndex (0 : Fin 3) = 0 := rfl
    have hu : upperIndex (0 : Fin 3) = 1 := rfl
    simp only [Option.some_bind, Option.map_some', CroppingPlanePosition, MinimumThickness,
      croppingBox, identityTransform, ha, hl, hu]
    norm_num

theorem cropping_writeback_is_feasible_clamp_witness :
    SetOrigin croppingBox ![12, 5, 5] = some { croppingBox with
      VolumeMapper := some
        { ClippingPlanes := none
          CroppingRegionPlanes := Function.update ![1, 9, 1, 9, 1, 9] 0
            (FeasibleClamp ![1, 9, 1, 9, 1, 9] ![0, 10, 0, 10, 0, 10] 1 0 12)
          Bounds := ![0, 10, 0, 10, 0, 10]
          Input := some
            { Origin := ![0, 0, 0]
              Spacing := ![1, 1, 1]
              WholeExtent := ![0, 10, 0, 10, 0, 10] } } } :=
  cropping_writeback_is_feasible_clamp.1 croppingBox
    { ClippingPlanes := none
      CroppingRegionPlanes := ![1, 9, 1, 9, 1, 9]
      Bounds := ![0, 10, 0, 10, 0, 10]
      Input := some
        { Origin := ![0, 0, 0]
          Spacing := ![1, 1, 1]
          WholeExtent := ![0, 10, 0, 10, 0, 10] } }
    0 ![12, 5, 5] 1 rfl rfl rfl rfl rfl

/-! ## C4: the slice index is the nearest index of the clamped coordinate -/

/-- Claim C4: on an image-slice target with plane index `p` (axis `i = p/2`), for
every new origin with local coordinate `oi` on axis `i`, `SetOrigin` returns and
stores in `displayExtent[2i]` and `displayExtent[2i+1]` the index
`k = NearestIndex x`, where
`x = clamp((oi - dataOrigin[i]) / dataSpacing[i], wholeExtent[2i], wholeExtent[2i+1])`:
`k` is `floor(x)`, plus one when `x - floor(x) ≥ 1/2`; it differs from `x` by at
most `1/2`, and no integer is nearer to `x`.  With data origin `(0,0,0)`, spacing
`(1,1,1)`, whole extent `(0,9,0,9,0,0)`, plane index 4 and local `z = -3` the
index written is 0. -/
theorem slice_writeback_index_is_nearest :
    (∀ (s : vtkPushPlaneAction) (actor : vtkImageActor) (data : vtkImageData) (p : Fin 6)
        (o : Vec3) (x : ℚ),
      s.Mapper = none → s.ImageActor = some actor → actor.Input = some data →
      s.PlaneId = (p.val : ℤ) →
      x = ClampedSliceCoordinate data (axisOf p)
        (s.Transform.InverseTransformPoint o (axisOf p)) →
      SetOrigin s o = some { s with
        ImageActor := some { actor with
          DisplayExtent :=
            Function.update
              (Function.update actor.DisplayExtent (upperIndex (axisOf p)) (NearestIndex x))
              (lowerIndex (axisOf p)) (NearestIndex x) } } ∧
      NearestIndex x = (if x - ((⌊x⌋ : ℤ) : ℚ) ≥ 1 / 2 then ⌊x⌋ + 1 else ⌊x⌋) ∧
      |(NearestIndex x : ℚ) - x| ≤ 1 / 2 ∧
      ∀ n : ℤ, |(NearestIndex x : ℚ) - x| ≤ |(n : ℚ) - x|) ∧
    ((SetOrigin singleSliceImage ![0, 0, -3]).bind (fun s => s.ImageActor)).map
      (fun actor => (actor.DisplayExtent 4, actor.DisplayExtent 5)) = some (0, 0) := by
  have hhalf : (0.5 : ℚ) = 1 / 2 := by norm_num
  have key : ∀ (s : vtkPushPlaneAction) (actor : vtkImageActor) (data : vtkImageData)
      (p : Fin 6) (o : Vec3), s.Mapper = none → s.ImageActor = some actor →
      actor.Input = some data → s.PlaneId = (p.val : ℤ) →
      SetOrigin s o = some { s with
        ImageActor := some { actor with
          DisplayExtent :=
            Function.update
              (Function.update actor.DisplayExtent (upperIndex (axisOf p))
                (NearestIndex (ClampedSliceCoordinate data (axisOf p)
                  (s.Transform.InverseTransformPoint o (axisOf p)))))
              (lowerIndex (axisOf p))
              (NearestIndex (ClampedSliceCoordinate data (axisOf p)
                (s.Transform.InverseTransformPoint o (axisOf p)))) } } := by
    intro s actor data p o hM hI hD hp
    rw [SetOrigin_slice s actor data p o hM hI hD hp, SliceIndex_eq]
    rfl
  constructor
  · intro s actor data p o x hM hI hD hp hx
    subst hx
    refine ⟨key s actor data p o hM hI hD hp, ?_, NearestIndex_close _, NearestIndex_nearest _⟩
    rw [← round_eq_NearestIndex, hhalf]
  · rw [key singleSliceImage _ _ 4 _ rfl rfl rfl rfl]
    have ha : axisOf (4 : Fin 6) = 2 := rfl
    have hl : lowerIndex (2 : Fin 3) = 4 := rfl
    have hu : upperIndex (2 : Fin 3) = 5 := rfl
    have hx : ClampedSliceCoordinate
        { Origin := ![0, 0, 0], Spacing := ![1, 1, 1], WholeExtent := ![0, 9, 0, 9, 0, 0] } 2
        (-3) = 0 := by
      have e4 : (![0, 9, 0, 9, 0, 0] : Ext6) 4 = 0 := rfl
      have e5 : (![0, 9, 0, 9, 0, 0] : Ext6) 5 = 0 := rfl
      have o2 : (![0, 0, 0] : Vec3) 2 = 0 := rfl
      have s2 : (![1, 1, 1] : Vec3) 2 = 1 := rfl
      simp only [ClampedSliceCoordinate, ClampTo, hl, hu, e4, e5, o2, s2]
      norm_num
    have hn : NearestIndex 0 = 0 := by
      unfold NearestIndex
      norm_num
    have hz : identityTransform.InverseTransformPoint ![0, 0, -3] 2 = -3 := rfl
    simp only [Option.some_bind, Option.map_some', singleSliceImage, ha, hl, hu]
    rw [hz, hx, hn]
    simp

theorem slice_writeback_index_is_nearest_witness :
    |(NearestIndex (ClampedSliceCoordinate
        { Origin := ![0, 0, 0], Spacing := ![1, 1, 1], WholeExtent := ![0, 9, 0, 9, 0, 0] }
        (axisOf 4) (identityTransform.InverseTransformPoint ![0, 0, -3] (axisOf 4))) : ℚ) -
      ClampedSliceCoordinate
        { Origin := ![0, 0, 0], Spacing := ![1, 1, 1], WholeExtent := ![0, 9, 0, 9, 0, 0] }
        (axisOf 4) (identityTransform.InverseTransformPoint ![0, 0, -3] (axisOf 4))| ≤ 1 / 2 :=
  (slice_writeback_index_is_nearest.1 singleSliceImage
    { Input := some
        { Origin := ![0, 0, 0]
          Spacing := ![1, 1, 1]
          WholeExtent := ![0, 9, 0, 9, 0, 0] }
      DisplayExtent := ![0, 9, 0, 9, 0, 0]
      DisplayBounds := ![0, 9, 0, 9, 0, 0] }
    { Origin := ![0, 0, 0]
      Spacing := ![1, 1, 1]
      WholeExtent := ![0, 9, 0, 9, 0, 0] }
    4 ![0, 0, -3] _ rfl rfl rfl rfl rfl).2.2.1

/-! ## C5: the gesture classification -/

/-- Claim C5: once `GetPropInformation` has returned, `StartAction` returns, keeps
the start normal `n` that `GetPropInformation` left, and sets the perpendicular
flag to true exactly when `|cross(normalize(n), normalize(v))|² < 0.2`, with
`v = focalPoint - cameraPosition`, and to false otherwise.  This holds for every
`n` and `v`, the zero vectors included. -/
theorem StartAction_classifies_perpendicular (cursor : vtkSurfaceCursor)
    (s s1 : vtkPushPlaneAction) (h : GetPropInformation cursor s = some s1) :
    ∃ s', StartAction cursor s = some s' ∧ s'.StartNormal = s1.StartNormal ∧
      (s'.PerpendicularPlane = true ↔
        Dot (Cross (Normalize cursor.sqrt s1.StartNormal)
            (Normalize cursor.sqrt (fun k => cursor.CameraFocalPoint k - cursor.CameraPosition k)))
          (Cross (Normalize cursor.sqrt s1.StartNormal)
            (Normalize cursor.sqrt (fun k => cursor.CameraFocalPoint k - cursor.CameraPosition k)))
          < 0.2) ∧
      (s'.PerpendicularPlane = false ↔
        ¬ Dot (Cross (Normalize cursor.sqrt s1.StartNormal)
            (Normalize cursor.sqrt (fun k => cursor.CameraFocalPoint k - cursor.CameraPosition k)))
          (Cross (Normalize cursor.sqrt s1.StartNormal)
            (Normalize cursor.sqrt (fun k => cursor.CameraFocalPoint k - cursor.CameraPosition k)))
          < 0.2) := by
  by_cases hc : Dot (Cross (Normalize cursor.sqrt s1.StartNormal)
      (Normalize cursor.sqrt (fun k => cursor.CameraFocalPoint k - cursor.CameraPosition k)))
    (Cross (Normalize cursor.sqrt s1.StartNormal)
      (Normalize cursor.sqrt (fun k => cursor.CameraFocalPoint k - cursor.CameraPosition k)))
    < 0.2
  · refine ⟨{ s1 with PerpendicularPlane := true }, ?_, rfl, ?_, ?_⟩
    · simp only [StartAction, h, if_pos hc]
    · exact ⟨fun _ => hc, fun _ => rfl⟩
    · exact ⟨fun e => Bool.noConfusion e, fun e => absurd hc e⟩
  · refine ⟨{ s1 with PerpendicularPlane := false }, ?_, rfl, ?_, ?_⟩
    · simp only [StartAction, h, if_neg hc]
    · exact ⟨fun e => Bool.noConfusion e, fun e => absurd e hc⟩
    · exact ⟨fun _ => hc, fun _ => rfl⟩

theorem StartAction_classifies_perpendicular_witness :
    ∃ s', StartAction frontCursor New = some s' ∧ s'.StartNormal = ![1, 0, 0] ∧
      (s'.PerpendicularPlane = true ↔
        Dot (Cross (Normalize Rat.sqrt ![1, 0, 0])
            (Normalize Rat.sqrt (fun k => (![0, 0, 0] : Vec3) k - (![0, 0, 10] : Vec3) k)))
          (Cross (Normalize Rat.sqrt ![1, 0, 0])
            (Normalize Rat.sqrt (fun k => (![0, 0, 0] : Vec3) k - (![0, 0, 10] : Vec3) k)))
          < 0.2) ∧
      (s'.PerpendicularPlane = false ↔
        ¬ Dot (Cross (Normalize Rat.sqrt ![1, 0, 0])
            (Normalize Rat.sqrt (fun k => (![0, 0, 0] : Vec3) k - (![0, 0, 10] : Vec3) k)))
          (Cross (Normalize Rat.sqrt ![1, 0, 0])
            (Normalize Rat.sqrt (fun k => (![0, 0, 0] : Vec3) k - (![0, 0, 10] : Vec3) k)))
          < 0.2) :=
  StartAction_classifies_perpendicular frontCursor New clippingGesture rfl

/-! ## C6, C7: the general-case push distance -/

/-- Claim C6: when `a*c - b² ≠ 0` (`a = normal·normal`, `b = normal·viewRay`,
`c = viewRay·viewRay`), the general-case distance `(c*d - b*e)/(a*c - b²)` is the
one `t` for which some point `p2 + s*viewRay` of the view-ray line makes
`(p1 + t*normal) - (p2 + s*viewRay)` orthogonal to both `normal` and `viewRay`:
`p1 + t*normal` is the point of the normal line closest to the view-ray line. -/
theorem general_distance_is_closest_point (p1 p2 normal viewRay : Vec3)
    (hD : Dot normal normal * Dot viewRay viewRay - Dot normal viewRay * Dot normal viewRay ≠ 0)
    (t : ℚ) :
    (∃ s : ℚ,
        Dot (fun k => (p1 k + t * normal k) - (p2 k + s * viewRay k)) normal = 0 ∧
        Dot (fun k => (p1 k + t * normal k) - (p2 k + s * viewRay k)) viewRay = 0) ↔
      t = GeneralDistance p1 p2 normal viewRay := by
  simp only [Dot] at hD
  constructor
  · rintro ⟨s, h1, h2⟩
    simp only [Dot] at h1 h2
    simp only [GeneralDistance, Dot]
    rw [eq_div_iff hD]
    linear_combination
      (viewRay 0 * viewRay 0 + viewRay 1 * viewRay 1 + viewRay 2 * viewRay 2) * h1 -
        (normal 0 * viewRay 0 + normal 1 * viewRay 1 + normal 2 * viewRay 2) * h2
  · intro ht
    have htD : t * (Dot normal normal * Dot viewRay viewRay -
        Dot normal viewRay * Dot normal viewRay) =
        Dot viewRay viewRay * Dot normal (fun k => p2 k - p1 k) -
          Dot normal viewRay * Dot viewRay (fun k => p2 k - p1 k) := by
      rw [ht]
      simp only [GeneralDistance, Dot]
      exact div_mul_cancel₀ _ hD
    refine ⟨(Dot normal viewRay * Dot normal (fun k => p2 k - p1 k) -
      Dot normal normal * Dot viewRay (fun k => p2 k - p1 k)) /
        (Dot normal normal * Dot viewRay viewRay - Dot normal viewRay * Dot normal viewRay),
      ?_, ?_⟩
    · simp only [Dot] at htD ⊢
      field_simp
      linear_combination
        (normal 0 * normal 0 + normal 1 * normal 1 + normal 2 * normal 2) * htD
    · simp only [Dot] at htD ⊢
      field_simp
      linear_combination
        (normal 0 * viewRay 0 + normal 1 * viewRay 1 + normal 2 * viewRay 2) * htD

theorem general_distance_is_closest_point_witness :
    (∃ s : ℚ,
        Dot (fun k => ((![0, 0, 0] : Vec3) k + 1 * (![1, 0, 0] : Vec3) k) -
          ((![1, 2, 3] : Vec3) k + s * (![0, 0, 1] : Vec3) k)) ![1, 0, 0] = 0 ∧
        Dot (fun k => ((![0, 0, 0] : Vec3) k + 1 * (![1, 0, 0] : Vec3) k) -
          ((![1, 2, 3] : Vec3) k + s * (![0, 0, 1] : Vec3) k)) ![0, 0, 1] = 0) ↔
      (1 : ℚ) = GeneralDistance ![0, 0, 0] ![1, 2, 3] ![1, 0, 0] ![0, 0, 1] :=
  general_distance_is_closest_point ![0, 0, 0] ![1, 2, 3] ![1, 0, 0] ![0, 0, 1]
    (by norm_num [Dot]) 1

/-- Claim C7: the general-case distance does not change when the view ray is
scaled by a positive `k`: for all `p1`, `p2`, `normal`, `viewRay` and `k > 0` the
distance for `k * viewRay` is the distance for `viewRay` (both quotients have a
zero divisor together). -/
theorem general_distance_scale_invariant (p1 p2 normal viewRay : Vec3) (k : ℚ) (hk : 0 < k) :
    GeneralDistance p1 p2 normal (fun i => k * viewRay i) =
      GeneralDistance p1 p2 normal viewRay := by
  have hk2 : k * k ≠ 0 := mul_ne_zero hk.ne' hk.ne'
  simp only [GeneralDistance, Dot]
  rw [eq_comm, ← mul_div_mul_left _ _ hk2]
  congr 1 <;> ring

theorem general_distance_scale_invariant_witness :
    GeneralDistance ![0, 0, 0] ![1, 2, 3] ![1, 0, 0] (fun i => 2 * (![0, 1, 1] : Vec3) i) =
      GeneralDistance ![0, 0, 0] ![1, 2, 3] ![1, 0, 0] ![0, 1, 1] :=
  general_distance_scale_invariant ![0, 0, 0] ![1, 2, 3] ![1, 0, 0] ![0, 1, 1] 2 (by norm_num)

/-! ## C8: the perpendicular-case push distance -/

/-- Claim C8: for every `p1`, `p2`, pointer, view ray and normal, provided only
that `sqrt` returns a non-negative value for `|p1 - p2|²`: the perpendicular-case
distance has that value, the code's `|p1 - p2|`, as its absolute value (and
`|p1 - p2|²` as the square of its absolute value wherever `sqrt` returns the
exact root).  When `x > ox` and `viewRay·normal ≥ 0` it is `≥ 0`; replacing `x`
by some `x' < ox`, or the view ray and normal by a pair with negative dot
product, negates it; replacing both restores it.  The normal need not be a unit
vector. -/
theorem perpendicular_distance_magnitude_and_sign (sqrt : ℚ → ℚ) (p1 p2 : Vec3)
    (x x' ox : ℚ) (viewRay normal viewRay' normal' : Vec3)
    (hnonneg : 0 ≤ sqrt (Distance2BetweenPoints p1 p2))
    (hx : x > ox) (hx' : x' < ox)
    (hd : Dot viewRay normal ≥ 0) (hd' : Dot viewRay' normal' < 0) :
    (∀ (y : ℚ) (w n : Vec3),
      |PerpendicularDistance sqrt p1 p2 y ox w n| = sqrt (Distance2BetweenPoints p1 p2) ∧
      (sqrt (Distance2BetweenPoints p1 p2) * sqrt (Distance2BetweenPoints p1 p2) =
          Distance2BetweenPoints p1 p2 →
        |PerpendicularDistance sqrt p1 p2 y ox w n| *
            |PerpendicularDistance sqrt p1 p2 y ox w n| =
          Distance2BetweenPoints p1 p2)) ∧
    0 ≤ PerpendicularDistance sqrt p1 p2 x ox viewRay normal ∧
    PerpendicularDistance sqrt p1 p2 x' ox viewRay normal =
      -PerpendicularDistance sqrt p1 p2 x ox viewRay normal ∧
    PerpendicularDistance sqrt p1 p2 x ox viewRay' normal' =
      -PerpendicularDistance sqrt p1 p2 x ox viewRay normal ∧
    PerpendicularDistance sqrt p1 p2 x' ox viewRay' normal' =
      PerpendicularDistance sqrt p1 p2 x ox viewRay normal := by
  have h1 : ¬ x - ox < 0 := by linarith
  have h2 : x' - ox < 0 := by linarith
  have h3 : ¬ Dot viewRay normal < 0 := not_lt.mpr hd
  have habs : ∀ (y : ℚ) (w n : Vec3),
      |PerpendicularDistance sqrt p1 p2 y ox w n| = sqrt (Distance2BetweenPoints p1 p2) := by
    intro y w n
    unfold PerpendicularDistance
    dsimp only
    split_ifs <;> simp only [abs_neg, neg_neg, abs_of_nonneg hnonneg]
  refine ⟨fun y w n => ⟨habs y w n, fun hroot => ?_⟩, ?_, ?_, ?_, ?_⟩
  · rw [habs y w n]
    exact hroot
  · simp only [PerpendicularDistance, if_neg h1, if_neg h3]
    exact hnonneg
  · simp only [PerpendicularDistance, if_neg h1, if_pos h2, if_neg h3]
  · simp only [PerpendicularDistance, if_neg h1, if_neg h3, if_pos hd']
  · simp only [PerpendicularDistance, if_neg h1, if_pos h2, if_neg h3, if_pos hd', neg_neg]

theorem perpendicular_distance_magnitude_and_sign_witness :
    0 ≤ PerpendicularDistance Rat.sqrt ![0, 0, 0] ![1, 1, 0] 7 2 ![0, 0, 1] ![0, 0, 1] ∧
    PerpendicularDistance Rat.sqrt ![0, 0, 0] ![1, 1, 0] 1 2 ![0, 0, 1] ![0, 0, 1] =
      -PerpendicularDistance Rat.sqrt ![0, 0, 0] ![1, 1, 0] 7 2 ![0, 0, 1] ![0, 0, 1] := by
  have h := perpendicular_distance_magnitude_and_sign Rat.sqrt ![0, 0, 0] ![1, 1, 0] 7 1 2
    ![0, 0, 1] ![0, 0, 1] ![0, 0, 1] ![0, 0, -1]
    (Rat.sqrt_nonneg _) (by norm_num) (by norm_num)
    (by norm_num [Dot]) (by norm_num [Dot])
  exact ⟨h.2.1, h.2.2.1⟩

/-! ## C9: a clipping plane moves along its start normal, unclamped -/

theorem Normalize_parallel (sqrt : ℚ → ℚ) (v : Vec3) :
    ∃ c : ℚ, ∀ k, Normalize sqrt v k = c * v k := by
  unfold Normalize
  by_cases h : Norm sqrt v ≠ 0
  · refine ⟨1 / Norm sqrt v, fun k => ?_⟩
    rw [if_pos h]
    ring
  · refine ⟨1, fun k => ?_⟩
    rw [if_neg h]
    ring

/-- Claim C9: on a clipping-plane owner with a valid plane index, `DoAction`
returns for every pointer position, and afterwards the origin of the indexed
plane is `StartOrigin + distance * normalize(StartNormal)` with `distance` the
push distance for that pointer position, whatever its size: the new origin minus
`StartOrigin` is a multiple of `StartNormal`. -/
theorem DoAction_clipping_moves_along_start_normal (cursor : vtkSurfaceCursor)
    (s : vtkPushPlaneAction) (mapper : vtkAbstractMapper3D) (planes : List vtkPlane)
    (plane : vtkPlane) (pos : ℚ × ℚ)
    (hM : s.Mapper = some mapper) (hP : mapper.ClippingPlanes = some planes)
    (hp : 0 ≤ s.PlaneId) (hpl : planes[s.PlaneId.toNat]? = some plane) :
    ∃ s' mapper' planes' plane',
      DoAction cursor s pos = some s' ∧ s'.Mapper = some mapper' ∧
      mapper'.ClippingPlanes = some planes' ∧ planes'[s.PlaneId.toNat]? = some plane' ∧
      (∀ k, plane'.Origin k =
        s.StartOrigin k + PushDistance cursor s pos * Normalize cursor.sqrt s.StartNormal k) ∧
      ∃ c : ℚ, ∀ k, plane'.Origin k - s.StartOrigin k = c * s.StartNormal k := by
  have hvalid : IsPlaneValid s = true := decide_eq_true hp
  have hlen : s.PlaneId.toNat < planes.length := (List.getElem?_eq_some.mp hpl).1
  obtain ⟨c, hc⟩ := Normalize_parallel cursor.sqrt s.StartNormal
  refine ⟨{ s with
      Mapper := some { mapper with
        ClippingPlanes := some (planes.set s.PlaneId.toNat { plane with
          Origin := fun k =>
            s.StartOrigin k + PushDistance cursor s pos * Normalize cursor.sqrt s.StartNormal k }) } },
    { mapper with
      ClippingPlanes := some (planes.set s.PlaneId.toNat { plane with
        Origin := fun k =>
          s.StartOrigin k + PushDistance cursor s pos * Normalize cursor.sqrt s.StartNormal k }) },
    planes.set s.PlaneId.toNat { plane with
      Origin := fun k =>
        s.StartOrigin k + PushDistance cursor s pos * Normalize cursor.sqrt s.StartNormal k },
    { plane with
      Origin := fun k =>
        s.StartOrigin k + PushDistance cursor s pos * Normalize cursor.sqrt s.StartNormal k },
    ?_, rfl, rfl, List.getElem?_set_self hlen, fun k => rfl,
    PushDistance cursor s pos * c, fun k => ?_⟩
  · rw [DoAction, if_pos hvalid]
    exact SetOrigin_clipping s mapper planes plane _ hM hP hp hpl
  · show s.StartOrigin k + PushDistance cursor s pos * Normalize cursor.sqrt s.StartNormal k -
      s.StartOrigin k = _
    rw [hc k]
    ring

theorem DoAction_clipping_moves_along_start_normal_witness :
    ∃ s' mapper' planes' plane',
      DoAction frontCursor clippingGesture (3, 4) = some s' ∧ s'.Mapper = some mapper' ∧
      mapper'.ClippingPlanes = some planes' ∧ planes'[0]? = some plane' ∧
      (∀ k, plane'.Origin k =
        (![0, 0, 0] : Vec3) k + PushDistance frontCursor clippingGesture (3, 4) *
          Normalize Rat.sqrt ![1, 0, 0] k) ∧
      ∃ c : ℚ, ∀ k, plane'.Origin k - (![0, 0, 0] : Vec3) k = c * (![1, 0, 0] : Vec3) k :=
  DoAction_clipping_moves_along_start_normal frontCursor clippingGesture
    { ClippingPlanes := some [{ Origin := ![0, 0, 0], Normal := ![1, 0, 0] }] }
    [{ Origin := ![0, 0, 0], Normal := ![1, 0, 0] }]
    { Origin := ![0, 0, 0], Normal := ![1, 0, 0] } (3, 4) rfl rfl (by decide) rfl

/-! ## C10: the result of `DoAction` does not depend on earlier moves -/

theorem CroppingPlanePosition_update_self (region bounds : Vec6) (t : ℚ) (p : Fin 6)
    (v x : ℚ) :
    CroppingPlanePosition (Function.update region p v) bounds t p x =
      CroppingPlanePosition region bounds t p x := by
  rcases plane_cases p with h | h
  · generalize axisOf p = i at h
    subst h
    rw [CroppingPlanePosition_lower, CroppingPlanePosition_lower,
      Function.update_noteq (lowerIndex_ne_upperIndex i i).symm]
  · generalize axisOf p = i at h
    subst h
    rw [CroppingPlanePosition_upper, CroppingPlanePosition_upper,
      Function.update_noteq (lowerIndex_ne_upperIndex i i)]

theorem SetOrigin_frame (s s1 : vtkPushPlaneAction) (o : Vec3) (h : SetOrigin s o = some s1) :
    s1.PlaneId = s.PlaneId ∧ s1.PerpendicularPlane = s.PerpendicularPlane ∧
      s1.StartNormal = s.StartNormal ∧ s1.StartOrigin = s.StartOrigin ∧
      s1.StartPosition = s.StartPosition ∧
      s1.StartDisplayPosition = s.StartDisplayPosition ∧ s1.Transform = s.Transform := by
  unfold SetOrigin at h
  repeat' split at h
  all_goals (cases h <;> exact ⟨rfl, rfl, rfl, rfl, rfl, rfl, rfl⟩)

theorem SetOrigin_bind_SetOrigin (s : vtkPushPlaneAction) (o1 o2 : Vec3) :
    (SetOrigin s o1).bind (fun s1 => SetOrigin s1 o2) = SetOrigin s o2 := by
  by_cases h0 : s.PlaneId < 0
  · simp only [SetOrigin, if_pos h0, Option.some_bind]
  · have hp : 0 ≤ s.PlaneId := not_lt.mp h0
    cases hM : s.Mapper with
    | some mapper =>
      cases hP : mapper.ClippingPlanes with
      | none => simp only [SetOrigin, if_neg h0, hM, hP, Option.none_bind]
      | some planes =>
        cases hpl : planes[s.PlaneId.toNat]? with
        | none => simp only [SetOrigin, if_neg h0, hM, hP, hpl, Option.none_bind]
        | some plane =>
          have hlen : s.PlaneId.toNat < planes.length := (List.getElem?_eq_some.mp hpl).1
          rw [SetOrigin_clipping s mapper planes plane o1 hM hP hp hpl,
            SetOrigin_clipping s mapper planes plane o2 hM hP hp hpl, Option.some_bind]
          simp only [SetOrigin, if_neg h0, List.getElem?_set_self hlen, List.set_set]
    | none =>
      cases hI : s.ImageActor with
      | some actor =>
        cases hD : actor.Input with
        | none => simp only [SetOrigin, if_neg h0, hM, hI, hD, Option.none_bind]
        | some data =>
          by_cases h6 : s.PlaneId.toNat < 6
          · have hpe : s.PlaneId = (((⟨s.PlaneId.toNat, h6⟩ : Fin 6).val : ℕ) : ℤ) :=
              (Int.toNat_of_nonneg hp).symm
            rw [SetOrigin_slice s actor data _ o1 hM hI hD hpe,
              SetOrigin_slice s actor data _ o2 hM hI hD hpe, Option.some_bind]
            simp only [SetOrigin, if_neg h0, hM, hD, dif_pos h6,
              Function.update_comm (lowerIndex_ne_upperIndex _ _), Function.update_idem]
          · simp only [SetOrigin, if_neg h0, hM, hI, hD, dif_neg h6, Option.none_bind]
      | none =>
        cases hV : s.VolumeMapper with
        | none => simp only [SetOrigin, if_neg h0, hM, hI, hV, Option.some_bind]
        | some vm =>
          by_cases h6 : s.PlaneId.toNat < 6
          · have hpe : s.PlaneId = (((⟨s.PlaneId.toNat, h6⟩ : Fin 6).val : ℕ) : ℤ) :=
              (Int.toNat_of_nonneg hp).symm
            rw [SetOrigin_cropping s vm _ o1 hM hI hV hpe,
              SetOrigin_cropping s vm _ o2 hM hI hV hpe, Option.some_bind]
            simp only [SetOrigin, if_neg h0, hM, hI, dif_pos h6, MinimumThickness,
              Function.update_idem, CroppingPlanePosition_update_self]
          · simp only [SetOrigin, if_neg h0, hM, hI, hV, dif_neg h6, Option.none_bind]

theorem DoAction_bind_DoAction (cursor : vtkSurfaceCursor) (s : vtkPushPlaneAction)
    (m1 m2 : ℚ × ℚ) :
    (DoAction cursor s m1).bind (fun s1 => DoAction cursor s1 m2) = DoAction cursor s m2 := by
  by_cases hv : IsPlaneValid s = true
  · cases h1 : DoAction cursor s m1 with
    | none =>
      rw [DoAction, if_pos hv] at h1
      have h2 := SetOrigin_bind_SetOrigin s
        (fun k => s.StartOrigin k + PushDistance cursor s m1 * Normalize cursor.sqrt s.StartNormal k)
        (fun k => s.StartOrigin k + PushDistance cursor s m2 * Normalize cursor.sqrt s.StartNormal k)
      rw [h1, Option.none_bind] at h2
      rw [Option.none_bind, DoAction, if_pos hv]
      exact h2
    | some s1 =>
      rw [DoAction, if_pos hv] at h1
      obtain ⟨hid, hperp, hn, ho, hpos, hdisp, _⟩ := SetOrigin_frame s s1 _ h1
      have hv1 : IsPlaneValid s1 = true := by
        unfold IsPlaneValid at hv ⊢
        rw [hid]
        exact hv
      have hd : PushDistance cursor s1 m2 = PushDistance cursor s m2 := by
        unfold PushDistance
        rw [hperp, hn, hpos, hdisp]
      have h2 := SetOrigin_bind_SetOrigin s
        (fun k => s.StartOrigin k + PushDistance cursor s m1 * Normalize cursor.sqrt s.StartNormal k)
        (fun k => s.StartOrigin k + PushDistance cursor s m2 * Normalize cursor.sqrt s.StartNormal k)
      rw [h1, Option.some_bind] at h2
      rw [Option.some_bind, DoAction, if_pos hv1, hd, hn, ho, DoAction, if_pos hv]
      exact h2
  · have h1 : DoAction cursor s m1 = some s := by rw [DoAction, if_neg hv]
    rw [h1, Option.some_bind]

theorem SetOrigin_returns (s : vtkPushPlaneAction) (o : Vec3)
    (h : IsClippingPlaneOwner s ∨ IsCroppingRegionOwner s ∨ IsSliceExtentOwner s) :
    ∃ s', SetOrigin s o = some s' := by
  rcases h with ⟨hp, mapper, planes, hM, hP, hlen⟩ | ⟨hp, h6, hM, hI, vm, hV⟩ |
    ⟨hp, h6, hM, actor, data, hI, hD⟩
  · exact ⟨_, SetOrigin_clipping s mapper planes _ o hM hP hp
      (List.getElem?_eq_getElem hlen)⟩
  · have hn : s.PlaneId.toNat < 6 := by omega
    exact ⟨_, SetOrigin_cropping s vm ⟨s.PlaneId.toNat, hn⟩ o hM hI hV
      (Int.toNat_of_nonneg hp).symm⟩
  · have hn : s.PlaneId.toNat < 6 := by omega
    exact ⟨_, SetOrigin_slice s actor data ⟨s.PlaneId.toNat, hn⟩ o hM hI hD
      (Int.toNat_of_nonneg hp).symm⟩

theorem DoAction_returns (cursor : vtkSurfaceCursor) (s : vtkPushPlaneAction) (m : ℚ × ℚ)
    (h : IsClippingPlaneOwner s ∨ IsCroppingRegionOwner s ∨ IsSliceExtentOwner s) :
    ∃ s', DoAction cursor s m = some s' := by
  unfold DoAction
  split_ifs
  · exact SetOrigin_returns s _ h
  · exact ⟨s, rfl⟩

/-- Claim C10: on each kind of target (clipping-plane, cropping-region or
slice-extent owner with a valid plane index) and for all pointer positions `m1`
and `m2`, `DoAction` returns, and `DoAction` at `m1` followed by `DoAction` at
`m2` leaves the state, target included, that `DoAction` at `m2` alone leaves;
repeating `DoAction` at `m2` changes nothing.  The camera and the display/world
conversions are the same in all the calls. -/
theorem DoAction_history_independent (cursor : vtkSurfaceCursor) (s : vtkPushPlaneAction)
    (m1 m2 : ℚ × ℚ)
    (h : IsClippingPlaneOwner s ∨ IsCroppingRegionOwner s ∨ IsSliceExtentOwner s) :
    ∃ s1 s2, DoAction cursor s m1 = some s1 ∧ DoAction cursor s m2 = some s2 ∧
      DoAction cursor s1 m2 = some s2 ∧ DoAction cursor s2 m2 = some s2 := by
  obtain ⟨s1, h1⟩ := DoAction_returns cursor s m1 h
  obtain ⟨s2, h2⟩ := DoAction_returns cursor s m2 h
  refine ⟨s1, s2, h1, h2, ?_, ?_⟩
  · have := DoAction_bind_DoAction cursor s m1 m2
    rwa [h1, Option.some_bind, h2] at this
  · have := DoAction_bind_DoAction cursor s m2 m2
    rwa [h2, Option.some_bind] at this

theorem DoAction_history_independent_witness :
    ∃ s1 s2, DoAction frontCursor croppingBox (3, 4) = some s1 ∧
      DoAction frontCursor croppingBox (12, 0) = some s2 ∧
      DoAction frontCursor s1 (12, 0) = some s2 ∧ DoAction frontCursor s2 (12, 0) = some s2 :=
  DoAction_history_independent frontCursor croppingBox (3, 4) (12, 0)
    (Or.inr (Or.inl ⟨by decide, by decide, rfl, rfl, _, rfl⟩))

/-! ## C11: without a plane index the entry points do nothing -/

/-- Claim C11: when the plane index is unset (`PlaneId < 0`), `DoAction` at every
pointer position, `SetOrigin` of every origin and `SetNormal` of every normal
return without a fault and return the state they were given: no clipping plane,
cropping region or display extent changes. -/
theorem unset_plane_index_is_no_op (cursor : vtkSurfaceCursor) (s : vtkPushPlaneAction)
    (pos : ℚ × ℚ) (o n : Vec3) (h : s.PlaneId < 0) :
    DoAction cursor s pos = some s ∧ SetOrigin s o = some s ∧ SetNormal s n = some s := by
  have hso : ∀ o' : Vec3, SetOrigin s o' = some s := fun o' => by
    simp only [SetOrigin, if_pos h]
  refine ⟨?_, hso o, ?_⟩
  · unfold DoAction
    split_ifs
    · exact hso _
    · rfl
  · simp only [SetNormal, if_pos h]

theorem unset_plane_index_is_no_op_witness :
    DoAction frontCursor New (3, 4) = some New ∧ SetOrigin New ![1, 2, 3] = some New ∧
      SetNormal New ![0, 2, 0] = some New :=
  unset_plane_index_is_no_op frontCursor New (3, 4) ![1, 2, 3] ![0, 2, 0] (by decide)

/-! ## C12: a gesture that starts with nothing picked -/

/-- Claim C12 fails on the code: with an empty collection of picked props
`GetNextProp3D` returns a null pointer, which line 209 dereferences
(`prop->GetMatrix()`); `GetPropInformation` and with it `StartAction` fault
instead of returning with the plane index at -1. -/
theorem StartAction_faults_on_empty_pick :
    GetPropInformation emptyPickCursor New = none ∧ StartAction emptyPickCursor New = none :=
  ⟨rfl, rfl⟩

/-! ## C13: the end of a gesture -/

/-- Claim C13, as stated, fails: after `StopAction` on a gesture that holds a
clipping plane, the plane index is still 0, not negative, and the mapper is
still referenced. -/
theorem StopAction_keeps_plane_counterexample :
    (decide ((StopAction id clippingGesture).PlaneId < 0),
      (StopAction id clippingGesture).PlaneId,
      (StopAction id clippingGesture).Mapper.isSome) = (false, 0, true) := by
  decide

/-- Claim C13 (amended): `StopAction` leaves the members of the action as they
are, whatever the superclass does with its own: the plane index, the references
to the image actor, the mapper and the volume mapper, the transform, the start
origin and normal and the perpendicular flag after `StopAction` are those before
it. -/
theorem StopAction_keeps_gesture_state (superStop : Vec3 × (ℚ × ℚ) → Vec3 × (ℚ × ℚ))
    (s : vtkPushPlaneAction) :
    (StopAction superStop s).PlaneId = s.PlaneId ∧
      (StopAction superStop s).ImageActor = s.ImageActor ∧
      (StopAction superStop s).Mapper = s.Mapper ∧
      (StopAction superStop s).VolumeMapper = s.VolumeMapper ∧
      (StopAction superStop s).Transform = s.Transform ∧
      SameGestureCache s (StopAction superStop s) :=
  ⟨rfl, rfl, rfl, rfl, rfl, rfl, rfl, rfl, rfl⟩

/-! ## C14: the plane index of an image slice -/

/-- Claim C14, as stated, fails: for a picked image actor with display extent
`(0,9,0,0,0,0)` the Z extent is degenerate (`extent[4] = extent[5]`), yet the
plane index resolved is 2, not 4: the Y extent is tested first and the Z extent
is never tested. -/
theorem row_image_plane_index_counterexample :
    (GetPropInformation rowImageCursor New).map (fun s => s.PlaneId) = some 2 := by
  rfl

/-- Claim C14 (amended): when the first picked prop is an image actor with
display extent `extent`, the plane index `GetPropInformation` resolves is 2 when
the Y extent is degenerate (`extent[2] = extent[3]`), 0 when the X extent is
degenerate and the Y extent is not, and 4 otherwise, so 4 when the Z extent
alone is degenerate and when no extent is; it is always 0, 2 or 4.  When the
picker reports no mapper, `GetPropInformation` returns. -/
theorem image_slice_plane_index (cursor : vtkSurfaceCursor) (s : vtkPushPlaneAction)
    (prop : vtkProp3D) (rest : List vtkProp3D) (actor : vtkImageActor)
    (hprops : cursor.Picker.Prop3Ds = prop :: rest) (hactor : prop.ImageActor = some actor) :
    (∀ s', GetPropInformation cursor s = some s' →
      (actor.DisplayExtent 2 = actor.DisplayExtent 3 → s'.PlaneId = 2) ∧
      (actor.DisplayExtent 2 ≠ actor.DisplayExtent 3 →
        actor.DisplayExtent 0 = actor.DisplayExtent 1 → s'.PlaneId = 0) ∧
      (actor.DisplayExtent 2 ≠ actor.DisplayExtent 3 →
        actor.DisplayExtent 0 ≠ actor.DisplayExtent 1 → s'.PlaneId = 4) ∧
      (s'.PlaneId = 0 ∨ s'.PlaneId = 2 ∨ s'.PlaneId = 4)) ∧
    (cursor.Picker.Mapper = none → ∃ s', GetPropInformation cursor s = some s') := by
  have hnn : (if actor.DisplayExtent 2 = actor.DisplayExtent 3 then (2 : ℤ)
      else if actor.DisplayExtent 0 = actor.DisplayExtent 1 then 0 else 4) ≥ 0 := by
    split_ifs <;> decide
  have hid : ∀ s', GetPropInformation cursor s = some s' →
      s'.PlaneId = if actor.DisplayExtent 2 = actor.DisplayExtent 3 then 2
        else if actor.DisplayExtent 0 = actor.DisplayExtent 1 then 0 else 4 := by
    intro s' h
    by_cases hv : (cursor.Picker.Mapper.bind PickedMapper.asVolumeMapper).isSome = true ∧
        cursor.Picker.CroppingPlaneId ≥ 0
    · simp only [GetPropInformation, hprops, List.head?_cons, hactor, if_pos hv, if_pos hnn] at h
      split at h
      · cases h
      · cases h
        rfl
    · simp only [GetPropInformation, hprops, List.head?_cons, hactor, if_neg hv, if_pos hnn] at h
      split at h
      · cases h
      · cases h
        rfl
  constructor
  · intro s' h
    have hp := hid s' h
    refine ⟨fun h2 => ?_, fun h2 h0 => ?_, fun h2 h0 => ?_, ?_⟩
    · rw [hp, if_pos h2]
    · rw [hp, if_neg h2, if_pos h0]
    · rw [hp, if_neg h2, if_neg h0]
    · rw [hp]
      split_ifs
      · exact Or.inr (Or.inl rfl)
      · exact Or.inl rfl
      · exact Or.inr (Or.inr rfl)
  · intro hmap
    have hv : ¬ ((cursor.Picker.Mapper.bind PickedMapper.asVolumeMapper).isSome = true ∧
        cursor.Picker.CroppingPlaneId ≥ 0) := by
      rw [hmap]
      simp
    have h6 : (0 ≤ (if actor.DisplayExtent 2 = actor.DisplayExtent 3 then (2 : ℤ)
          else if actor.DisplayExtent 0 = actor.DisplayExtent 1 then 0 else 4)) ∧
        (if actor.DisplayExtent 2 = actor.DisplayExtent 3 then (2 : ℤ)
          else if actor.DisplayExtent 0 = actor.DisplayExtent 1 then 0 else 4).toNat < 6 := by
      split_ifs <;> decide
    simp only [GetPropInformation, hprops, List.head?_cons, hactor, if_neg hv, if_pos hnn]
    simp only [hmap, Option.map_none', GetPlaneOriginAndNormal]
    rw [dif_pos h6]
    exact ⟨_, rfl⟩

theorem image_slice_plane_index_witness :
    ∃ s', GetPropInformation rowImageCursor New = some s' ∧ s'.PlaneId = 2 := by
  have h := image_slice_plane_index rowImageCursor New _ [] _ rfl rfl
  obtain ⟨s', hs'⟩ := h.2 rfl
  exact ⟨s', hs', (h.1 s' hs').1 rfl⟩

/-! ## C15: a perpendicular gesture ignores vertical motion -/

/-- Claim C15: in a perpendicular gesture, two pointer positions `(x, y1)` and
`(x, y2)` with the same `x` give the same push distance, the same new origin and
the same result of `DoAction`; on a target with a valid plane index `DoAction`
returns at both positions, with one and the same state. -/
theorem perpendicular_ignores_vertical_motion (cursor : vtkSurfaceCursor)
    (s : vtkPushPlaneAction) (x y1 y2 : ℚ) (hperp : s.PerpendicularPlane = true) :
    PushDistance cursor s (x, y1) = PushDistance cursor s (x, y2) ∧
    (∀ k, s.StartOrigin k + PushDistance cursor s (x, y1) * Normalize cursor.sqrt s.StartNormal k =
      s.StartOrigin k + PushDistance cursor s (x, y2) * Normalize cursor.sqrt s.StartNormal k) ∧
    DoAction cursor s (x, y1) = DoAction cursor s (x, y2) ∧
    (IsClippingPlaneOwner s ∨ IsCroppingRegionOwner s ∨ IsSliceExtentOwner s →
      ∃ s', DoAction cursor s (x, y1) = some s' ∧ DoAction cursor s (x, y2) = some s') := by
  have hd : PushDistance cursor s (x, y1) = PushDistance cursor s (x, y2) := by
    simp only [PushDistance, hperp, if_true]
  have hdo : DoAction cursor s (x, y1) = DoAction cursor s (x, y2) := by
    simp only [DoAction, hd]
  refine ⟨hd, fun k => by rw [hd], hdo, fun h => ?_⟩
  obtain ⟨s', hs'⟩ := DoAction_returns cursor s (x, y1) h
  exact ⟨s', hs', hdo ▸ hs'⟩

theorem perpendicular_ignores_vertical_motion_witness :
    DoAction frontCursor perpendicularGesture (3, 4) =
      DoAction frontCursor perpendicularGesture (3, -7) :=
  (perpendicular_ignores_vertical_motion frontCursor perpendicularGesture 3 4 (-7) rfl).2.2.1

/-! ## C16: the normal write-back -/

/-- Claim C16: on a clipping-plane owner with a valid plane index, `SetNormal n`
returns, stores `n` itself as the normal of the indexed plane, keeps the origin
of that plane, and a second `SetNormal n` returns the state the first one left.
On a cropping-region owner and on a slice-extent owner `SetNormal` returns the
state it was given. -/
theorem SetNormal_verbatim_and_idempotent (s : vtkPushPlaneAction)
    (mapper : vtkAbstractMapper3D) (planes : List vtkPlane) (plane : vtkPlane) (n : Vec3)
    (hM : s.Mapper = some mapper) (hP : mapper.ClippingPlanes = some planes)
    (hp : 0 ≤ s.PlaneId) (hpl : planes[s.PlaneId.toNat]? = some plane) :
    (∃ s1 mapper1 planes1 plane1,
      SetNormal s n = some s1 ∧ SetNormal s1 n = some s1 ∧
      s1.Mapper = some mapper1 ∧ mapper1.ClippingPlanes = some planes1 ∧
      planes1[s.PlaneId.toNat]? = some plane1 ∧ plane1.Normal = n ∧
      plane1.Origin = plane.Origin) ∧
    (∀ s2 : vtkPushPlaneAction, IsCroppingRegionOwner s2 ∨ IsSliceExtentOwner s2 →
      SetNormal s2 n = some s2) := by
  have h0 : ¬ s.PlaneId < 0 := not_lt.mpr hp
  have hlen : s.PlaneId.toNat < planes.length := (List.getElem?_eq_some.mp hpl).1
  constructor
  · refine ⟨{ s with
        Mapper := some { mapper with
          ClippingPlanes := some (planes.set s.PlaneId.toNat { plane with Normal := n }) } },
      { mapper with
        ClippingPlanes := some (planes.set s.PlaneId.toNat { plane with Normal := n }) },
      planes.set s.PlaneId.toNat { plane with Normal := n }, { plane with Normal := n },
      ?_, ?_, rfl, rfl, List.getElem?_set_self hlen, rfl, rfl⟩
    · simp only [SetNormal, if_neg h0, hM, hP, hpl]
    · simp only [SetNormal, if_neg h0, List.getElem?_set_self hlen, List.set_set]
  · rintro s2 (⟨hp2, _, hM2, _⟩ | ⟨hp2, _, hM2, _⟩)
    · simp only [SetNormal, if_neg (not_lt.mpr hp2), hM2]
    · simp only [SetNormal, if_neg (not_lt.mpr hp2), hM2]

theorem SetNormal_verbatim_and_idempotent_witness :
    ∃ s1 mapper1 planes1 plane1,
      SetNormal clippingGesture ![0, 3, 4] = some s1 ∧
      SetNormal s1 ![0, 3, 4] = some s1 ∧
      s1.Mapper = some mapper1 ∧ mapper1.ClippingPlanes = some planes1 ∧
      planes1[0]? = some plane1 ∧ plane1.Normal = ![0, 3, 4] ∧
      plane1.Origin = ![0, 0, 0] :=
  (SetNormal_verbatim_and_idempotent clippingGesture
    { ClippingPlanes := some [{ Origin := ![0, 0, 0], Normal := ![1, 0, 0] }] }
    [{ Origin := ![0, 0, 0], Normal := ![1, 0, 0] }]
    { Origin := ![0, 0, 0], Normal := ![1, 0, 0] } ![0, 3, 4] rfl rfl (by decide) rfl).1

/-! ## C17: the classification keeps the general-case divisor away from zero -/

theorem Dot_Cross_self (a b : Vec3) :
    Dot (Cross a b) (Cross a b) = Dot a a * Dot b b - Dot a b * Dot a b := by
  simp only [Dot, Cross, Matrix.cons_val_zero, Matrix.cons_val_one, Matrix.head_cons,
    Matrix.cons_val_two, Matrix.tail_cons]
  ring

theorem Dot_smul_left (c : ℚ) (a b : Vec3) : Dot (fun k => c * a k) b = c * Dot a b := by
  simp only [Dot]
  ring

theorem Dot_smul_right (c : ℚ) (a b : Vec3) : Dot a (fun k => c * b k) = c * Dot a b := by
  simp only [Dot]
  ring

theorem Dot_self_pos (v : Vec3) (hv : v ≠ 0) : 0 < Dot v v := by
  have hne : ∃ k, v k ≠ 0 := by
    by_contra hall
    push_neg at hall
    exact hv (funext hall)
  have h0 := mul_self_nonneg (v 0)
  have h1 := mul_self_nonneg (v 1)
  have h2 := mul_self_nonneg (v 2)
  obtain ⟨k, hk⟩ := hne
  have hkpos : 0 < v k * v k := mul_self_pos.mpr hk
  simp only [Dot]
  fin_cases k
  · have : 0 < v 0 * v 0 := hkpos
    linarith
  · have : 0 < v 1 * v 1 := hkpos
    linarith
  · have : 0 < v 2 * v 2 := hkpos
    linarith

theorem Normalize_of_exact_root (sqrt : ℚ → ℚ) (v : Vec3) (hv : v ≠ 0)
    (hroot : Norm sqrt v * Norm sqrt v = Dot v v) :
    Norm sqrt v ≠ 0 ∧ Normalize sqrt v = (fun k => (1 / Norm sqrt v) * v k) ∧
      Dot (Normalize sqrt v) (Normalize sqrt v) = 1 := by
  have hpos := Dot_self_pos v hv
  have hne : Norm sqrt v ≠ 0 := by
    intro h0
    rw [h0, mul_zero] at hroot
    linarith
  have hN : Normalize sqrt v = (fun k => (1 / Norm sqrt v) * v k) := by
    unfold Normalize
    rw [if_pos hne]
    funext k
    ring
  refine ⟨hne, hN, ?_⟩
  rw [hN, Dot_smul_left, Dot_smul_right, ← hroot]
  field_simp

/-- Claim C17: for every `n`, `v` and `sqrt`, if the gesture is classified as not
perpendicular (`|cross(normalize(n), normalize(v))|² ≥ 0.2`) and the view ray is
`l * v` with `l ≠ 0`, then with `normal = normalize(n)` the divisor `a*c - b²` of
the general-case distance is positive, the general-case distance is a quotient
by that non-zero divisor, and the divisor times `|normalize(v)|²` is
`(viewRay·viewRay) * |cross|²`, at least `0.2 * (viewRay·viewRay)`.  Hence the
divisor itself is at least `0.2 * (viewRay·viewRay)` whenever normalizing `v`
yields a vector of norm at most 1, in particular when `sqrt` returns the exact
norm of a non-zero `v`. -/
theorem not_perpendicular_guards_division (sqrt : ℚ → ℚ) (n v : Vec3) (l : ℚ)
    (hclass : ¬ Dot (Cross (Normalize sqrt n) (Normalize sqrt v))
      (Cross (Normalize sqrt n) (Normalize sqrt v)) < 0.2)
    (hl : l ≠ 0) :
    0 < GeneralDenominator (Normalize sqrt n) (fun k => l * v k) ∧
    (∀ p1 p2 : Vec3,
      GeneralDistance p1 p2 (Normalize sqrt n) (fun k => l * v k) *
          GeneralDenominator (Normalize sqrt n) (fun k => l * v k) =
        Dot (fun k => l * v k) (fun k => l * v k) *
            Dot (Normalize sqrt n) (fun k => p2 k - p1 k) -
          Dot (Normalize sqrt n) (fun k => l * v k) *
            Dot (fun k => l * v k) (fun k => p2 k - p1 k)) ∧
    GeneralDenominator (Normalize sqrt n) (fun k => l * v k) *
        Dot (Normalize sqrt v) (Normalize sqrt v) =
      Dot (fun k => l * v k) (fun k => l * v k) *
        Dot (Cross (Normalize sqrt n) (Normalize sqrt v))
          (Cross (Normalize sqrt n) (Normalize sqrt v)) ∧
    0.2 * Dot (fun k => l * v k) (fun k => l * v k) ≤
      GeneralDenominator (Normalize sqrt n) (fun k => l * v k) *
        Dot (Normalize sqrt v) (Normalize sqrt v) ∧
    (Dot (Normalize sqrt v) (Normalize sqrt v) ≤ 1 →
      0.2 * Dot (fun k => l * v k) (fun k => l * v k) ≤
        GeneralDenominator (Normalize sqrt n) (fun k => l * v k)) ∧
    (v ≠ 0 → Norm sqrt v * Norm sqrt v = Dot v v →
      0.2 * Dot (fun k => l * v k) (fun k => l * v k) ≤
        GeneralDenominator (Normalize sqrt n) (fun k => l * v k)) := by
  obtain ⟨β, hβ⟩ := Normalize_parallel sqrt v
  have hV : Normalize sqrt v = fun k => β * v k := funext hβ
  have hclass' : (0.2 : ℚ) ≤ Dot (Cross (Normalize sqrt n) (Normalize sqrt v))
      (Cross (Normalize sqrt n) (Normalize sqrt v)) := not_lt.mp hclass
  have hX : Dot (Cross (Normalize sqrt n) (Normalize sqrt v))
      (Cross (Normalize sqrt n) (Normalize sqrt v)) =
      (β * β) * (Dot (Normalize sqrt n) (Normalize sqrt n) * Dot v v -
        Dot (Normalize sqrt n) v * Dot (Normalize sqrt n) v) := by
    rw [Dot_Cross_self, hV, Dot_smul_left, Dot_smul_right, Dot_smul_right]
    ring
  have hden : GeneralDenominator (Normalize sqrt n) (fun k => l * v k) =
      (l * l) * (Dot (Normalize sqrt n) (Normalize sqrt n) * Dot v v -
        Dot (Normalize sqrt n) v * Dot (Normalize sqrt n) v) := by
    unfold GeneralDenominator
    rw [Dot_smul_left, Dot_smul_right, Dot_smul_right]
    ring
  have hc : Dot (fun k => l * v k) (fun k => l * v k) = (l * l) * Dot v v := by
    rw [Dot_smul_left, Dot_smul_right]
    ring
  have hVV : Dot (Normalize sqrt v) (Normalize sqrt v) = (β * β) * Dot v v := by
    rw [hV, Dot_smul_left, Dot_smul_right]
    ring
  have hvv : 0 ≤ Dot v v := by
    have h0 := mul_self_nonneg (v 0)
    have h1 := mul_self_nonneg (v 1)
    have h2 := mul_self_nonneg (v 2)
    simp only [Dot]
    linarith
  have hll : 0 < l * l := mul_self_pos.mpr hl
  have hW : 0 < Dot (Normalize sqrt n) (Normalize sqrt n) * Dot v v -
      Dot (Normalize sqrt n) v * Dot (Normalize sqrt n) v := by
    by_contra hneg
    rw [not_lt] at hneg
    have : (β * β) * (Dot (Normalize sqrt n) (Normalize sqrt n) * Dot v v -
        Dot (Normalize sqrt n) v * Dot (Normalize sqrt n) v) ≤ 0 :=
      mul_nonpos_of_nonneg_of_nonpos (mul_self_nonneg β) hneg
    rw [hX] at hclass'
    have h02 : (0 : ℚ) < 0.2 := by norm_num
    linarith
  have hpos : 0 < GeneralDenominator (Normalize sqrt n) (fun k => l * v k) := by
    rw [hden]
    exact mul_pos hll hW
  have hid : GeneralDenominator (Normalize sqrt n) (fun k => l * v k) *
        Dot (Normalize sqrt v) (Normalize sqrt v) =
      Dot (fun k => l * v k) (fun k => l * v k) *
        Dot (Cross (Normalize sqrt n) (Normalize sqrt v))
          (Cross (Normalize sqrt n) (Normalize sqrt v)) := by
    rw [hden, hVV, hc, hX]
    ring
  have hcnonneg : 0 ≤ Dot (fun k => l * v k) (fun k => l * v k) := by
    rw [hc]
    exact mul_nonneg hll.le hvv
  have hscaled : 0.2 * Dot (fun k => l * v k) (fun k => l * v k) ≤
      GeneralDenominator (Normalize sqrt n) (fun k => l * v k) *
        Dot (Normalize sqrt v) (Normalize sqrt v) := by
    rw [hid, mul_comm (0.2 : ℚ)]
    exact mul_le_mul_of_nonneg_left hclass' hcnonneg
  have hunit : Dot (Normalize sqrt v) (Normalize sqrt v) ≤ 1 →
      0.2 * Dot (fun k => l * v k) (fun k => l * v k) ≤
        GeneralDenominator (Normalize sqrt n) (fun k => l * v k) := by
    intro h1
    have := mul_le_mul_of_nonneg_left h1 hpos.le
    rw [mul_one] at this
    exact le_trans hscaled this
  refine ⟨hpos, fun p1 p2 => ?_, hid, hscaled, hunit, fun hv hroot => ?_⟩
  · have hquot : GeneralDistance p1 p2 (Normalize sqrt n) (fun k => l * v k) =
        (Dot (fun k => l * v k) (fun k => l * v k) *
              Dot (Normalize sqrt n) (fun k => p2 k - p1 k) -
            Dot (Normalize sqrt n) (fun k => l * v k) *
              Dot (fun k => l * v k) (fun k => p2 k - p1 k)) /
          GeneralDenominator (Normalize sqrt n) (fun k => l * v k) := rfl
    rw [hquot]
    exact div_mul_cancel₀ _ hpos.ne'
  · exact hunit (Normalize_of_exact_root sqrt v hv hroot).2.2.le

theorem not_perpendicular_guards_division_witness :
    0 < GeneralDenominator (Normalize Rat.sqrt ![1, 1, 0])
      (fun k => 3 * (![0, 0, 1] : Vec3) k) := by
  have hs2 : Rat.sqrt 2 = 1 := by
    have h2 : Nat.sqrt 2 = 1 := by
      rw [eq_comm, Nat.eq_sqrt]
      norm_num
    simp [Rat.sqrt, Int.sqrt, h2]
  have hs1 : Rat.sqrt 1 = 1 := by
    have := Rat.sqrt_eq 1
    rwa [mul_one, abs_one] at this
  have hN : Normalize Rat.sqrt ![1, 1, 0] = ![1, 1, 0] := by
    have hnorm : Norm Rat.sqrt ![1, 1, 0] = 1 := by
      have harg : (![1, 1, 0] : Vec3) 0 * (![1, 1, 0] : Vec3) 0 +
          (![1, 1, 0] : Vec3) 1 * (![1, 1, 0] : Vec3) 1 +
          (![1, 1, 0] : Vec3) 2 * (![1, 1, 0] : Vec3) 2 = 2 := by norm_num
      rw [Norm, harg, hs2]
    unfold Normalize
    rw [hnorm, if_pos one_ne_zero]
    funext k
    rw [div_one]
  have hV : Normalize Rat.sqrt ![0, 0, 1] = ![0, 0, 1] := by
    have hnorm : Norm Rat.sqrt ![0, 0, 1] = 1 := by
      have harg : (![0, 0, 1] : Vec3) 0 * (![0, 0, 1] : Vec3) 0 +
          (![0, 0, 1] : Vec3) 1 * (![0, 0, 1] : Vec3) 1 +
          (![0, 0, 1] : Vec3) 2 * (![0, 0, 1] : Vec3) 2 = 1 := by norm_num
      rw [Norm, harg, hs1]
    unfold Normalize
    rw [hnorm, if_pos one_ne_zero]
    funext k
    rw [div_one]
  have hclass : ¬ Dot (Cross (Normalize Rat.sqrt ![1, 1, 0]) (Normalize Rat.sqrt ![0, 0, 1]))
      (Cross (Normalize Rat.sqrt ![1, 1, 0]) (Normalize Rat.sqrt ![0, 0, 1])) < 0.2 := by
    rw [hN, hV, Dot_Cross_self]
    norm_num [Dot]
  exact (not_perpendicular_guards_division Rat.sqrt ![1, 1, 0] ![0, 0, 1] 3
    hclass (by norm_num)).1

/-! ## C18: a well-formed cropping region stays well-formed -/

theorem CroppingPlanePosition_stays_inside (region bounds : Vec6) (t : ℚ) (p : Fin 6) (x0 : ℚ)
    (ht : 0 < t)
    (hlo : bounds (lowerIndex (axisOf p)) ≤ region (lowerIndex (axisOf p)))
    (hhi : region (upperIndex (axisOf p)) ≤ bounds (upperIndex (axisOf p)))
    (hth : region (lowerIndex (axisOf p)) + t ≤ region (upperIndex (axisOf p))) :
    bounds (lowerIndex (axisOf p)) ≤
        Function.update region p (CroppingPlanePosition region bounds t p x0)
          (lowerIndex (axisOf p)) ∧
      Function.update region p (CroppingPlanePosition region bounds t p x0)
          (upperIndex (axisOf p)) ≤ bounds (upperIndex (axisOf p)) := by
  rcases plane_cases p with h | h
  · generalize axisOf p = i at h hlo hhi hth ⊢
    subst h
    rw [Function.update_same, Function.update_noteq (lowerIndex_ne_upperIndex i i).symm,
      CroppingPlanePosition_lower]
    exact ⟨le_min (le_max_right _ _) (by linarith), hhi⟩
  · generalize axisOf p = i at h hlo hhi hth ⊢
    subst h
    rw [Function.update_same, Function.update_noteq (lowerIndex_ne_upperIndex i i),
      CroppingPlanePosition_upper]
    exact ⟨hlo, min_le_right _ _⟩

/-- Claim C18: on a cropping-region owner with plane index `p` (axis `i = p/2`,
thickness `t > 0`), if the region lies inside the data bounds on axis `i`
(`bounds[2i] ≤ region[2i]`, `region[2i+1] ≤ bounds[2i+1]`) and
`region[2i] + t ≤ region[2i+1]`, then for every new origin `SetOrigin` returns,
and the region it commits again lies inside the data bounds on axis `i` and
satisfies `region[2i] + t ≤ region[2i+1]`; the bounds and the thickness are
unchanged.  `p` ranges over both planes of the axis. -/
theorem cropping_writeback_keeps_well_formed (s : vtkPushPlaneAction) (vm : vtkVolumeMapper)
    (p : Fin 6) (o : Vec3)
    (hM : s.Mapper = none) (hI : s.ImageActor = none) (hV : s.VolumeMapper = some vm)
    (hp : s.PlaneId = (p.val : ℤ))
    (ht : 0 < MinimumThickness vm (axisOf p))
    (hlo : vm.Bounds (lowerIndex (axisOf p)) ≤ vm.CroppingRegionPlanes (lowerIndex (axisOf p)))
    (hhi : vm.CroppingRegionPlanes (upperIndex (axisOf p)) ≤ vm.Bounds (upperIndex (axisOf p)))
    (hth : vm.CroppingRegionPlanes (lowerIndex (axisOf p)) + MinimumThickness vm (axisOf p) ≤
      vm.CroppingRegionPlanes (upperIndex (axisOf p))) :
    ∃ s' vm', SetOrigin s o = some s' ∧ s'.VolumeMapper = some vm' ∧
      vm'.Bounds = vm.Bounds ∧
      MinimumThickness vm' (axisOf p) = MinimumThickness vm (axisOf p) ∧
      vm.Bounds (lowerIndex (axisOf p)) ≤ vm'.CroppingRegionPlanes (lowerIndex (axisOf p)) ∧
      vm'.CroppingRegionPlanes (upperIndex (axisOf p)) ≤ vm.Bounds (upperIndex (axisOf p)) ∧
      vm'.CroppingRegionPlanes (lowerIndex (axisOf p)) + MinimumThickness vm (axisOf p) ≤
        vm'.CroppingRegionPlanes (upperIndex (axisOf p)) := by
  have hin := CroppingPlanePosition_stays_inside vm.CroppingRegionPlanes vm.Bounds
    (MinimumThickness vm (axisOf p)) p (s.Transform.InverseTransformPoint o (axisOf p))
    ht hlo hhi hth
  have hkeep := CroppingPlanePosition_keeps_thickness vm.CroppingRegionPlanes vm.Bounds
    (MinimumThickness vm (axisOf p)) p (s.Transform.InverseTransformPoint o (axisOf p))
    (fun _ => by linarith) (fun _ => by linarith)
  exact ⟨_, _, SetOrigin_cropping s vm p o hM hI hV hp, rfl, rfl, rfl, hin.1, hin.2, hkeep⟩

theorem cropping_writeback_keeps_well_formed_witness :
    ∃ s' vm', SetOrigin croppingBox ![12, 5, 5] = some s' ∧ s'.VolumeMapper = some vm' ∧
      vm'.Bounds = ![0, 10, 0, 10, 0, 10] ∧
      MinimumThickness vm' 0 = 1 ∧
      (0 : ℚ) ≤ vm'.CroppingRegionPlanes 0 ∧ vm'.CroppingRegionPlanes 1 ≤ (10 : ℚ) ∧
      vm'.CroppingRegionPlanes 0 + 1 ≤ vm'.CroppingRegionPlanes 1 :=
  cropping_writeback_keeps_well_formed croppingBox
    { ClippingPlanes := none
      CroppingRegionPlanes := ![1, 9, 1, 9, 1, 9]
      Bounds := ![0, 10, 0, 10, 0, 10]
      Input := some
        { Origin := ![0, 0, 0]
          Spacing := ![1, 1, 1]
          WholeExtent := ![0, 10, 0, 10, 0, 10] } }
    0 ![12, 5, 5] rfl rfl rfl rfl
    (by show (0 : ℚ) < (![1, 1, 1] : Vec3) 0; norm_num)
    (by show (![0, 10, 0, 10, 0, 10] : Vec6) 0 ≤ (![1, 9, 1, 9, 1, 9] : Vec6) 0; norm_num)
    (by show (![1, 9, 1, 9, 1, 9] : Vec6) 1 ≤ (![0, 10, 0, 10, 0, 10] : Vec6) 1; norm_num)
    (by
      show (![1, 9, 1, 9, 1, 9] : Vec6) 0 + (![1, 1, 1] : Vec3) 0 ≤ (![1, 9, 1, 9, 1, 9] : Vec6) 1
      norm_num)

/-! ## C19: what the origin write-back leaves alone -/

theorem axisOf_ne_imp_ne (p q : Fin 6) (h : axisOf q ≠ axisOf p) :
    q ≠ lowerIndex (axisOf p) ∧ q ≠ upperIndex (axisOf p) := by
  constructor
  · intro e
    apply h
    rw [e, axisOf_lowerIndex]
  · intro e
    apply h
    rw [e, axisOf_upperIndex]

/-- Claim C19: `SetOrigin` returns and changes the active plane only.  On a
cropping-region owner every entry of the region other than `region[PlaneId]` is
unchanged; on a slice-extent owner every display-extent entry of an axis other
than `PlaneId/2` is unchanged; on a clipping-plane owner the normal of the
indexed plane, the number of planes and every other plane are unchanged.  In all
three cases the cached start origin, start normal, plane index and perpendicular
flag are unchanged. -/
theorem SetOrigin_changes_active_plane_only (o : Vec3) :
    (∀ (s : vtkPushPlaneAction) (vm : vtkVolumeMapper) (p : Fin 6),
      s.Mapper = none → s.ImageActor = none → s.VolumeMapper = some vm →
      s.PlaneId = (p.val : ℤ) →
      ∃ s' vm', SetOrigin s o = some s' ∧ s'.VolumeMapper = some vm' ∧
        (∀ q, q ≠ p → vm'.CroppingRegionPlanes q = vm.CroppingRegionPlanes q) ∧
        SameGestureCache s s') ∧
    (∀ (s : vtkPushPlaneAction) (actor : vtkImageActor) (data : vtkImageData) (p : Fin 6),
      s.Mapper = none → s.ImageActor = some actor → actor.Input = some data →
      s.PlaneId = (p.val : ℤ) →
      ∃ s' actor', SetOrigin s o = some s' ∧ s'.ImageActor = some actor' ∧
        (∀ q, axisOf q ≠ axisOf p → actor'.DisplayExtent q = actor.DisplayExtent q) ∧
        SameGestureCache s s') ∧
    (∀ (s : vtkPushPlaneAction) (mapper : vtkAbstractMapper3D) (planes : List vtkPlane)
        (plane : vtkPlane),
      s.Mapper = some mapper → mapper.ClippingPlanes = some planes → 0 ≤ s.PlaneId →
      planes[s.PlaneId.toNat]? = some plane →
      ∃ s' mapper' planes' plane', SetOrigin s o = some s' ∧ s'.Mapper = some mapper' ∧
        mapper'.ClippingPlanes = some planes' ∧
        planes'[s.PlaneId.toNat]? = some plane' ∧ plane'.Normal = plane.Normal ∧
        planes'.length = planes.length ∧
        (∀ j, j ≠ s.PlaneId.toNat → planes'[j]? = planes[j]?) ∧
        SameGestureCache s s') := by
  refine ⟨?_, ?_, ?_⟩
  · intro s vm p hM hI hV hp
    refine ⟨_, _, SetOrigin_cropping s vm p o hM hI hV hp, rfl, fun q hq => ?_,
      rfl, rfl, rfl, rfl⟩
    exact Function.update_noteq hq _ _
  · intro s actor data p hM hI hD hp
    refine ⟨_, _, SetOrigin_slice s actor data p o hM hI hD hp, rfl, fun q hq => ?_,
      rfl, rfl, rfl, rfl⟩
    obtain ⟨h1, h2⟩ := axisOf_ne_imp_ne p q hq
    dsimp only
    rw [Function.update_noteq h1, Function.update_noteq h2]
  · intro s mapper planes plane hM hP hp hpl
    have hlen : s.PlaneId.toNat < planes.length := (List.getElem?_eq_some.mp hpl).1
    refine ⟨_, _, _, { plane with Origin := o },
      SetOrigin_clipping s mapper planes plane o hM hP hp hpl, rfl, rfl,
      List.getElem?_set_self hlen, rfl, List.length_set _ _ _, fun j hj => ?_,
      rfl, rfl, rfl, rfl⟩
    exact List.getElem?_set_ne (Ne.symm hj)

theorem SetOrigin_changes_active_plane_only_witness :
    ∃ s' vm', SetOrigin croppingBox ![12, 5, 5] = some s' ∧ s'.VolumeMapper = some vm' ∧
      (∀ q, q ≠ 0 → vm'.CroppingRegionPlanes q = (![1, 9, 1, 9, 1, 9] : Vec6) q) ∧
      SameGestureCache croppingBox s' :=
  (SetOrigin_changes_active_plane_only ![12, 5, 5]).1 croppingBox
    { ClippingPlanes := none
      CroppingRegionPlanes := ![1, 9, 1, 9, 1, 9]
      Bounds := ![0, 10, 0, 10, 0, 10]
      Input := some
        { Origin := ![0, 0, 0]
          Spacing := ![1, 1, 1]
          WholeExtent := ![0, 10, 0, 10, 0, 10] } }
    0 rfl rfl rfl rfl

/-! ## C20: reading a cropping plane and writing it back -/

theorem CroppingPlanePosition_fixed (region bounds : Vec6) (t : ℚ) (p : Fin 6)
    (h1 : bounds (lowerIndex (axisOf p)) ≤ region (lowerIndex (axisOf p)))
    (h2 : region (lowerIndex (axisOf p)) ≤ bounds (upperIndex (axisOf p)))
    (h3 : bounds (lowerIndex (axisOf p)) ≤ region (upperIndex (axisOf p)))
    (h4 : region (upperIndex (axisOf p)) ≤ bounds (upperIndex (axisOf p)))
    (hth : region (lowerIndex (axisOf p)) + t ≤ region (upperIndex (axisOf p))) :
    CroppingPlanePosition region bounds t p (region p) = region p := by
  rcases plane_cases p with h | h
  · generalize axisOf p = i at h h1 h2 h3 h4 hth ⊢
    subst h
    have e1 : min (region (lowerIndex i)) (region (upperIndex i) - t) = region (lowerIndex i) :=
      min_eq_left (by linarith)
    have e2 : min (region (lowerIndex i)) (bounds (upperIndex i) - t) = region (lowerIndex i) :=
      min_eq_left (by linarith)
    rw [CroppingPlanePosition_lower, e1, e2, max_eq_left h1, min_eq_left h2]
  · generalize axisOf p = i at h h1 h2 h3 h4 hth ⊢
    subst h
    have e1 : max (region (upperIndex i)) (region (lowerIndex i) + t) = region (upperIndex i) :=
      max_eq_left hth
    have e2 : max (region (upperIndex i)) (bounds (lowerIndex i) + t) = region (upperIndex i) :=
      max_eq_left (by linarith)
    rw [CroppingPlanePosition_upper, e1, e2, max_eq_left h3, min_eq_left h4]

/-- Claim C20: on a cropping-region owner with plane index `p` (axis `i = p/2`,
thickness `t`) and a transform whose inverse undoes it, if the region lies
inside the data bounds on axis `i` (`region[2i]` and `region[2i+1]` both lie in
`[bounds[2i], bounds[2i+1]]`) and `region[2i] + t ≤ region[2i+1]`, then
`GetPlaneOriginAndNormal` returns, as origin, the image under the transform of
the box centre with its `i`-th coordinate replaced by `region[p]`, and
`SetOrigin` of that origin returns the state it was given: the cropping region
is unchanged. -/
theorem cropping_read_write_round_trip (s : vtkPushPlaneAction) (vm : vtkVolumeMapper)
    (p : Fin 6) (origin normal : Vec3)
    (hM : s.Mapper = none) (hI : s.ImageActor = none) (hV : s.VolumeMapper = some vm)
    (hp : s.PlaneId = (p.val : ℤ))
    (hinv : ∀ x, s.Transform.InverseTransformPoint (s.Transform.TransformPoint x) = x)
    (h1 : vm.Bounds (lowerIndex (axisOf p)) ≤ vm.CroppingRegionPlanes (lowerIndex (axisOf p)))
    (h2 : vm.CroppingRegionPlanes (lowerIndex (axisOf p)) ≤ vm.Bounds (upperIndex (axisOf p)))
    (h3 : vm.Bounds (lowerIndex (axisOf p)) ≤ vm.CroppingRegionPlanes (upperIndex (axisOf p)))
    (h4 : vm.CroppingRegionPlanes (upperIndex (axisOf p)) ≤ vm.Bounds (upperIndex (axisOf p)))
    (hth : vm.CroppingRegionPlanes (lowerIndex (axisOf p)) + MinimumThickness vm (axisOf p) ≤
      vm.CroppingRegionPlanes (upperIndex (axisOf p))) :
    ∃ o n, GetPlaneOriginAndNormal s origin normal = some (o, n) ∧
      o = s.Transform.TransformPoint
        (Function.update
          ![(1 / 2) * (vm.CroppingRegionPlanes 0 + vm.CroppingRegionPlanes 1),
            (1 / 2) * (vm.CroppingRegionPlanes 2 + vm.CroppingRegionPlanes 3),
            (1 / 2) * (vm.CroppingRegionPlanes 4 + vm.CroppingRegionPlanes 5)]
          (axisOf p) (vm.CroppingRegionPlanes p)) ∧
      SetOrigin s o = some s := by
  have hn : s.PlaneId.toNat = p.val := by rw [hp]; exact Int.toNat_natCast _
  have h6 : 0 ≤ s.PlaneId ∧ s.PlaneId.toNat < 6 :=
    ⟨by rw [hp]; exact Int.natCast_nonneg _, by rw [hn]; exact p.isLt⟩
  have hfin : (⟨s.PlaneId.toNat, h6.2⟩ : Fin 6) = p := Fin.ext hn
  refine ⟨_, s.Transform.TransformNormal (Function.update (fun _ => 0) (axisOf p) 1), ?_, rfl, ?_⟩
  · simp only [GetPlaneOriginAndNormal, hM, hI, hV, dif_pos h6, hfin]
  · rw [SetOrigin_cropping s vm p _ hM hI hV hp, hinv, Function.update_same,
      CroppingPlanePosition_fixed _ _ _ p h1 h2 h3 h4 hth, Function.update_eq_self]
    cases s
    cases vm
    simp only at hV
    simp only [hV]

theorem cropping_read_write_round_trip_witness :
    ∃ o n, GetPlaneOriginAndNormal croppingBox ![0, 0, 0] ![0, 0, 1] = some (o, n) ∧
      o = identityTransform.TransformPoint
        (Function.update
          ![(1 / 2) * ((![1, 9, 1, 9, 1, 9] : Vec6) 0 + (![1, 9, 1, 9, 1, 9] : Vec6) 1),
            (1 / 2) * ((![1, 9, 1, 9, 1, 9] : Vec6) 2 + (![1, 9, 1, 9, 1, 9] : Vec6) 3),
            (1 / 2) * ((![1, 9, 1, 9, 1, 9] : Vec6) 4 + (![1, 9, 1, 9, 1, 9] : Vec6) 5)]
          (axisOf 0) ((![1, 9, 1, 9, 1, 9] : Vec6) 0)) ∧
      SetOrigin croppingBox o = some croppingBox :=
  cropping_read_write_round_trip croppingBox
    { ClippingPlanes := none
      CroppingRegionPlanes := ![1, 9, 1, 9, 1, 9]
      Bounds := ![0, 10, 0, 10, 0, 10]
      Input := some
        { Origin := ![0, 0, 0]
          Spacing := ![1, 1, 1]
          WholeExtent := ![0, 10, 0, 10, 0, 10] } }
    0 ![0, 0, 0] ![0, 0, 1] rfl rfl rfl rfl (fun _ => rfl)
    (by show (![0, 10, 0, 10, 0, 10] : Vec6) 0 ≤ (![1, 9, 1, 9, 1, 9] : Vec6) 0; norm_num)
    (by show (![1, 9, 1, 9, 1, 9] : Vec6) 0 ≤ (![0, 10, 0, 10, 0, 10] : Vec6) 1; norm_num)
    (by show (![0, 10, 0, 10, 0, 10] : Vec6) 0 ≤ (![1, 9, 1, 9, 1, 9] : Vec6) 1; norm_num)
    (by show (![1, 9, 1, 9, 1, 9] : Vec6) 1 ≤ (![0, 10, 0, 10, 0, 10] : Vec6) 1; norm_num)
    (by
      show (![1, 9, 1, 9, 1, 9] : Vec6) 0 + (![1, 1, 1] : Vec3) 0 ≤ (![1, 9, 1, 9, 1, 9] : Vec6) 1
      norm_num)

end PushPlane
